import Mathlib

/-!
# Store management app: orders, order status, inventory writes

A shallow embedding of the Express/Mongoose handlers of
`store-management-app/server.js` that place an order
(`orderRouter.post('/')`), list the orders (`orderRouter.get('/')`), update
an order status (`orderRouter.put('/:orderId/status')`), write an inventory
record (`inventoryRouter.put('/:productId')`) and update a product
(`productRouter.put('/:id')`), of the submit handlers of the client forms
`client/src/pages/CreateOrder.js` and
`client/src/components/UpdateStockModal.js`, and of the low-stock flag of
`client/src/pages/InventoryList.js`.

* JavaScript numbers are exact rationals.
* A request body is a parsed JSON value (`JVal`); an absent property reads as
  `undefined`.
* The three MongoDB collections are lists of documents; `findOne`/`findById`
  return the first matching document, `findOneAndUpdate` and `save` of a loaded
  document write the first matching document.
* A value of the request body that a handler hands to a query is a condition
  on the path it is given for: equality with the object id it casts to, or,
  for an object of query operators, the test the operators make.
* What the handlers get from the environment (Mongoose casts of loosely typed
  values, the fresh `_id` of a new document, the clock, and whether the
  database refuses a write) is collected in `Env`. Reads of the database
  succeed.
* A handler is a function from the store it finds to its response and the
  store it leaves; one request runs at a time, except in the section on
  placements that overlap, where the order handler is cut at
  `newOrder.save()` and two placements are run under a schedule.
-/

namespace StoreApp

/-- MongoDB object identifiers, as the strings they round-trip as. -/
abbrev ObjectId := String

/-- Milliseconds since the epoch, as returned by `Date.now()`. -/
abbrev Timestamp := Nat

/-- Parsed JSON values, extended with `undefined` for absent properties. -/
inductive JVal where
  | undefined
  | null
  | bool (b : Bool)
  | num (q : ℚ)
  | str (s : String)
  | arr (xs : List JVal)
  | obj (fields : List (String × JVal))

namespace JVal

/-- JavaScript `ToBoolean`: what `!v` negates. -/
def truthy : JVal → Bool
  | undefined => false
  | null => false
  | bool b => b
  | num q => decide (q ≠ 0)
  | str s => decide (s ≠ "")
  | arr _ => true
  | obj _ => true

/-- Property read `v.k` for the keys the handlers use (`product_id`,
`quantity`, and the keys of the request bodies): `none` is the `TypeError`
raised on `null` and `undefined`; an object yields the property or
`undefined`; other values have no such property. -/
def field (v : JVal) (k : String) : Option JVal :=
  match v with
  | undefined => none
  | null => none
  | obj fs => some ((fs.lookup k).getD undefined)
  | _ => some undefined

/-- The test `v === undefined`. -/
def isUndefined : JVal → Bool
  | undefined => true
  | _ => false

/-- The test `list.includes(v)` for a list of string literals. -/
def includedIn (v : JVal) (list : List String) : Bool :=
  match v with
  | str s => list.contains s
  | _ => false

end JVal

/-! ## Documents -/

/-- A document of the `Product` collection (`productSchema`). -/
structure Product where
  id : ObjectId
  name : String
  description : Option String
  price : ℚ
  image_url : Option String
  category : Option String
  created_at : Timestamp
  updated_at : Timestamp

/-- A document of the `Inventory` collection (`inventorySchema`). -/
structure Inventory where
  id : ObjectId
  product_id : ObjectId
  quantity : ℚ
  last_stocked_date : Timestamp
  low_stock_threshold : Option ℚ

/-- An embedded line item (`orderItemSchema`). -/
structure OrderItem where
  product_id : ObjectId
  quantity : ℚ
  price_per_unit : ℚ

/-- A document of the `Order` collection (`orderSchema`). -/
structure Order where
  id : ObjectId
  customer_id : Option ObjectId
  items : List OrderItem
  total_amount : ℚ
  status : String
  shipping_address : Option String
  billing_address : Option String
  order_date : Timestamp

/-- The database: the three collections the order flow touches. -/
structure Store where
  products : List Product
  inventory : List Inventory
  orders : List Order

/-- What a handler takes from its environment. -/
structure Env where
  /-- Mongoose cast of a value to an `ObjectId`; `none` is a `CastError`. -/
  castObjectId : JVal → Option ObjectId
  /-- Mongoose cast of a value that is no `ObjectId` and is given as the
  condition on an `ObjectId` path of a query filter: an object of query
  operators, such as `{ "$ne": null }`, casts to the test the path has to pass;
  `none` is a `CastError`. -/
  castIdOperators : JVal → Option (ObjectId → Bool)
  /-- Mongoose cast to `String` of a value that is neither a string, `null`
  nor `undefined`; `none` is a `CastError`. -/
  castString : JVal → Option String
  /-- The `_id` generated for a new document. -/
  newId : ObjectId
  /-- The clock: reading number `k` of `new Date()` within the request. -/
  clock : Nat → Timestamp
  /-- The database refuses the write of `order.save()`. -/
  orderSaveFails : Bool
  /-- The database refuses the `k`-th write the request makes to the
  `Inventory` collection (the `findOneAndUpdate` calls of phase 3, the
  `save()` of an inventory record). -/
  inventoryWriteFails : Nat → Bool
  /-- Mongoose cast to `Number` of a value that is neither a number, `null`
  nor `undefined`; `none` is a `CastError`. -/
  castNumber : JVal → Option ℚ
  /-- Mongoose cast and update validation of the update document of
  `Product.findByIdAndUpdate`: `none` when a path does not cast or a
  validator rejects it, else what the update makes of the matched
  product. -/
  castProductUpdate : JVal → Option (Product → Product)

/-! ## Responses -/

/-- The `message` of an error response, with the interpolated values kept
apart. -/
inductive Message where
  | itemsRequired
  | missingProductIdOrQuantity
  | quantityNotPositive (product_id : JVal)
  | productNotFound (product_id : JVal)
  | insufficientStock (name : String) (requested available : ℚ)
  | failedToCreateOrder
  | invalidStatus
  | orderNotFound
  | orderNotFoundInvalidId
  | errorUpdatingStatus
  | quantityMustBeNumber
  | productNotFoundForInventory
  | inventoryInvalidId
  | errorUpdatingInventory
  | productMissing
  | productInvalidId
  | errorUpdatingProduct

/-- The fields `populate('items.product_id', 'name price category image_url')`
selects. -/
structure ProductView where
  id : ObjectId
  name : String
  price : ℚ
  category : Option String
  image_url : Option String

/-- A line item whose `product_id` is replaced by the product (or `null`). -/
structure PopulatedItem where
  product_id : Option ProductView
  quantity : ℚ
  price_per_unit : ℚ

/-- An order with populated line items. -/
structure PopulatedOrder where
  id : ObjectId
  customer_id : Option ObjectId
  items : List PopulatedItem
  total_amount : ℚ
  status : String
  shipping_address : Option String
  billing_address : Option String
  order_date : Timestamp

/-- An inventory record after `populate('product_id')`. -/
structure PopulatedInventory where
  id : ObjectId
  product_id : Option Product
  quantity : ℚ
  last_stocked_date : Timestamp
  low_stock_threshold : Option ℚ

/-- A document of the `Customer` collection (`customerSchema`). -/
structure Customer where
  id : ObjectId
  first_name : String
  last_name : String
  email : String
  phone : Option String
  address : Option String
  created_at : Timestamp

/-- The fields `populate('customer_id', 'first_name last_name email')`
selects. -/
structure CustomerView where
  id : ObjectId
  first_name : String
  last_name : String
  email : String

/-- An order of the list `GET /api/orders` returns: line items and customer
populated. -/
structure ListedOrder where
  id : ObjectId
  customer_id : Option CustomerView
  items : List PopulatedItem
  total_amount : ℚ
  status : String
  shipping_address : Option String
  billing_address : Option String
  order_date : Timestamp

/-- The JSON body of a response. -/
inductive Payload where
  | message (m : Message)
  | order (o : Option PopulatedOrder)
  | inventory (r : Option PopulatedInventory)
  | product (p : Product)
  | orders (os : List ListedOrder)

/-- An HTTP response: `res.status(status).json(body)`. -/
structure Response where
  status : Nat
  body : Payload

/-! ## Collection operations -/

/-- The call `Product.findById(id)`. -/
def Store.findProduct (s : Store) (id : ObjectId) : Option Product :=
  s.products.find? (fun p => p.id == id)

/-- The call `Inventory.findOne({ product_id })`. -/
def findInventory (inv : List Inventory) (pid : ObjectId) : Option Inventory :=
  inv.find? (fun r => r.product_id == pid)

/-- The call `Order.findById(id)`. -/
def findOrder (orders : List Order) (id : ObjectId) : Option Order :=
  orders.find? (fun o => o.id == id)

/-- The call
`Inventory.findOneAndUpdate({ product_id }, { $set: { quantity, last_stocked_date } })`:
the first record of the product is written, none when there is no record. -/
def findOneAndUpdate (pid : ObjectId) (quantity : ℚ) (date : Timestamp) :
    List Inventory → List Inventory
  | [] => []
  | r :: rs =>
    if r.product_id == pid then
      { r with quantity := quantity, last_stocked_date := date } :: rs
    else r :: findOneAndUpdate pid quantity date rs

/-- The write of `order.save()` after `order.status = status`: the status of
the first order with that `_id`. -/
def saveStatus (id : ObjectId) (status : String) : List Order → List Order
  | [] => []
  | o :: os =>
    if o.id == id then { o with status := status } :: os
    else o :: saveStatus id status os

/-- Population of one line item. -/
def populateItem (s : Store) (i : OrderItem) : PopulatedItem :=
  { product_id := (s.findProduct i.product_id).map fun p =>
      { id := p.id, name := p.name, price := p.price, category := p.category,
        image_url := p.image_url }
    quantity := i.quantity
    price_per_unit := i.price_per_unit }

/-- The call `populate('items.product_id', 'name price category image_url')`. -/
def populate (s : Store) (o : Order) : PopulatedOrder :=
  { id := o.id
    customer_id := o.customer_id
    items := o.items.map (populateItem s)
    total_amount := o.total_amount
    status := o.status
    shipping_address := o.shipping_address
    billing_address := o.billing_address
    order_date := o.order_date }

/-! ## `POST /api/orders` -/

/-- The destructured request body of `POST /api/orders`. -/
structure OrderRequest where
  customer_id : JVal
  items : JVal
  shipping_address : JVal
  billing_address : JVal

/-- An entry of `inventoryUpdates`. -/
structure InventoryUpdate where
  productId : ObjectId
  newQuantity : ℚ

/-- The three accumulators of phase 1. -/
structure Staged where
  calculatedTotalAmount : ℚ
  orderItemsData : List OrderItem
  inventoryUpdates : List InventoryUpdate

/-- The response of the `catch` block of the order handler. -/
def failedToCreate : Response := ⟨500, .message .failedToCreateOrder⟩

/-- The condition a value of the request body puts on an `ObjectId` path
when it is handed to a query, as `item.product_id` is to
`Product.findById(item.product_id)` and to
`Inventory.findOne({ product_id: item.product_id })`: equality with the
object id it casts to, else the test its query operators cast to; `none` is a
`CastError`. -/
def idCondition (env : Env) (v : JVal) : Option (ObjectId → Bool) :=
  match env.castObjectId v with
  | some id => some fun x => x == id
  | none => env.castIdOperators v

/-- One iteration of the phase 1 loop (`server.js`, lines 322 to 351): either
an early response or the extended accumulators. The product and the inventory
record come from two queries on the raw `item.product_id`: each returns the
first document of its collection that passes the condition, and when the
condition is not an equality the two documents need not belong to one
product. -/
def checkItem (env : Env) (s : Store) (acc : Staged) (item : JVal) :
    Except Response Staged :=
  match item.field "product_id", item.field "quantity" with
  | some product_id, some quantity =>
    if !product_id.truthy || quantity.isUndefined then
      .error ⟨400, .message .missingProductIdOrQuantity⟩
    else
      match quantity with
      | .num q =>
        if q ≤ 0 then .error ⟨400, .message (.quantityNotPositive product_id)⟩
        else
          match idCondition env product_id with
          | none => .error failedToCreate
          | some matching =>
            match s.products.find? (fun p => matching p.id) with
            | none => .error ⟨404, .message (.productNotFound product_id)⟩
            | some product =>
              match s.inventory.find? (fun r => matching r.product_id) with
              | none =>
                .error ⟨400, .message (.insufficientStock product.name q 0)⟩
              | some inventory =>
                if inventory.quantity < q then
                  .error ⟨400, .message
                    (.insufficientStock product.name q inventory.quantity)⟩
                else
                  .ok
                    { calculatedTotalAmount :=
                        acc.calculatedTotalAmount + product.price * q
                      orderItemsData := acc.orderItemsData ++
                        [{ product_id := product.id, quantity := q,
                           price_per_unit := product.price }]
                      inventoryUpdates := acc.inventoryUpdates ++
                        [{ productId := product.id,
                           newQuantity := inventory.quantity - q }] }
      | _ => .error ⟨400, .message (.quantityNotPositive product_id)⟩
  | _, _ => .error failedToCreate

/-- Phase 1: the loop `for (const item of items)`. -/
def phase1 (env : Env) (s : Store) : List JVal → Staged → Except Response Staged
  | [], acc => .ok acc
  | item :: rest, acc =>
    match checkItem env s acc item with
    | .error r => .error r
    | .ok acc' => phase1 env s rest acc'

/-- Cast of an optional `ObjectId` path of a new document: the outer `none`
is a `CastError`. -/
def castIdPath (env : Env) : JVal → Option (Option ObjectId)
  | .undefined => some none
  | .null => some none
  | v => (env.castObjectId v).map some

/-- Cast of an optional `String` path of a new document: the outer `none` is
a `CastError`. -/
def castStringPath (env : Env) : JVal → Option (Option String)
  | .undefined => some none
  | .null => some none
  | .str s => some (some s)
  | v => (env.castString v).map some

/-- Phase 2, `new Order({...})` followed by the validation `save()` runs:
`none` when a path does not cast or a line item breaks `min: 1`. -/
def newOrder (env : Env) (req : OrderRequest) (acc : Staged) : Option Order :=
  match castIdPath env req.customer_id, castStringPath env req.shipping_address,
      castStringPath env req.billing_address with
  | some customer_id, some shipping_address, some billing_address =>
    if acc.orderItemsData.all (fun i => decide (1 ≤ i.quantity)) then
      some
        { id := env.newId
          customer_id := customer_id
          items := acc.orderItemsData
          total_amount := acc.calculatedTotalAmount
          status := "Pending"
          shipping_address := shipping_address
          billing_address := billing_address
          order_date := env.clock 0 }
    else none
  | _, _, _ => none

/-- Phase 3: the staged writes, in order, from write number `k`. The flag
tells whether every write went through; at the first refused write the loop
is left with the records written so far. -/
def phase3 (env : Env) : Nat → List InventoryUpdate → List Inventory →
    List Inventory × Bool
  | _, [], inv => (inv, true)
  | k, update :: rest, inv =>
    if env.inventoryWriteFails k then (inv, false)
    else
      phase3 env (k + 1) rest
        (findOneAndUpdate update.productId update.newQuantity (env.clock (k + 1)) inv)

/-- Phases 2 and 3 and the final response (`server.js`, lines 353 to 385): a
refused order leaves the store as it was, a refused inventory write leaves
the order and the writes made before it. -/
def commit (env : Env) (s : Store) (req : OrderRequest) (acc : Staged) :
    Response × Store :=
  match newOrder env req acc with
  | none => (failedToCreate, s)
  | some order =>
    if env.orderSaveFails || (findOrder s.orders order.id).isSome then
      (failedToCreate, s)
    else
      let written := phase3 env 0 acc.inventoryUpdates s.inventory
      let final : Store :=
        { s with orders := s.orders ++ [order], inventory := written.1 }
      if written.2 then
        (⟨201, .order ((findOrder final.orders order.id).map (populate final))⟩,
          final)
      else (failedToCreate, final)

/-- The handler `orderRouter.post('/')`: the response and the store it
leaves. -/
def orderRouter_post (env : Env) (s : Store) (req : OrderRequest) :
    Response × Store :=
  match req.items with
  | .arr (item :: rest) =>
    match phase1 env s (item :: rest) ⟨0, [], []⟩ with
    | .error r => (r, s)
    | .ok acc => commit env s req acc
  | _ => (⟨400, .message .itemsRequired⟩, s)

/-! ## `PUT /api/orders/:orderId/status` -/

/-- The enumeration of the status check. -/
def validStatuses : List String :=
  ["Pending", "Processing", "Shipped", "Delivered", "Cancelled"]

/-- The handler `orderRouter.put('/:orderId/status')` (`server.js`, lines 422
to 454). -/
def orderRouter_put_status (env : Env) (s : Store) (orderId : String)
    (status : JVal) : Response × Store :=
  if !status.truthy || !status.includedIn validStatuses then
    (⟨400, .message .invalidStatus⟩, s)
  else
    match status, env.castObjectId (.str orderId) with
    | .str newStatus, some id =>
      match findOrder s.orders id with
      | none => (⟨404, .message .orderNotFound⟩, s)
      | some order =>
        if env.orderSaveFails then (⟨500, .message .errorUpdatingStatus⟩, s)
        else
          let final : Store :=
            { s with orders := saveStatus order.id newStatus s.orders }
          (⟨200, .order ((findOrder final.orders order.id).map (populate final))⟩,
            final)
    | _, _ => (⟨404, .message .orderNotFoundInvalidId⟩, s)

/-! ## Request bodies -/

/-- The destructuring `const { k } = req.body`: the property, `undefined`
when the body has none. -/
def bodyField (body : JVal) (k : String) : JVal :=
  (body.field k).getD .undefined

/-- The destructuring
`const { customer_id, items, shipping_address, billing_address } = req.body`
of the order handler: no other property of the body is read. -/
def orderRequestOf (body : JVal) : OrderRequest :=
  { customer_id := bodyField body "customer_id"
    items := bodyField body "items"
    shipping_address := bodyField body "shipping_address"
    billing_address := bodyField body "billing_address" }

/-! ## `PUT /api/inventory/:productId` -/

/-- Cast of a value given to a `Number` path: the outer `none` is a
`CastError`, the inner one `null`. -/
def castNumberPath (env : Env) : JVal → Option (Option ℚ)
  | .undefined => some none
  | .null => some none
  | .num q => some (some q)
  | v => (env.castNumber v).map some

/-- The expression `low_stock_threshold !== undefined ? low_stock_threshold :
fallback` once cast by the `Number` path it is given to: the outer `none` is
a `CastError`. -/
def givenThreshold (env : Env) (low_stock_threshold : JVal) (fallback : Option ℚ) :
    Option (Option ℚ) :=
  match low_stock_threshold with
  | .undefined => some fallback
  | v => castNumberPath env v

/-- The write of `inventoryRecord.save()` for a loaded record: the loaded
document, the first one of its product, is replaced. -/
def saveInventory (record : Inventory) : List Inventory → List Inventory
  | [] => []
  | r :: rs =>
    if r.product_id == record.product_id then record :: rs
    else r :: saveInventory record rs

/-- The call `Inventory.findById(id).populate('product_id')`. -/
def populateInventory (s : Store) (id : ObjectId) : Option PopulatedInventory :=
  (s.inventory.find? fun r => r.id == id).map fun r =>
    { id := r.id
      product_id := s.findProduct r.product_id
      quantity := r.quantity
      last_stocked_date := r.last_stocked_date
      low_stock_threshold := r.low_stock_threshold }

/-- The response of the `catch` block of the inventory handler for an error
that is not a cast of the id. -/
def failedToUpdateInventory : Response := ⟨500, .message .errorUpdatingInventory⟩

/-- The handler `inventoryRouter.put('/:productId')` (`server.js`, lines 255
to 300). A loaded record gets the quantity and, when one is given, the
threshold; the `pre('save')` hook refreshes `last_stocked_date` when
`quantity` is modified, that is when it differs from the loaded one. Without
a record a new one is inserted, with the threshold given or 10. -/
def inventoryRouter_put (env : Env) (s : Store) (productId : String) (body : JVal) :
    Response × Store :=
  match bodyField body "quantity" with
  | .num quantity =>
    match env.castObjectId (.str productId) with
    | none => (⟨404, .message .inventoryInvalidId⟩, s)
    | some pid =>
      match s.findProduct pid with
      | none => (⟨404, .message .productNotFoundForInventory⟩, s)
      | some _ =>
        match findInventory s.inventory pid with
        | some inventoryRecord =>
          match givenThreshold env (bodyField body "low_stock_threshold")
              inventoryRecord.low_stock_threshold with
          | none => (failedToUpdateInventory, s)
          | some low_stock_threshold =>
            if env.inventoryWriteFails 0 then (failedToUpdateInventory, s)
            else
              let saved : Inventory :=
                { inventoryRecord with
                  quantity := quantity
                  low_stock_threshold := low_stock_threshold
                  last_stocked_date :=
                    if quantity ≠ inventoryRecord.quantity then env.clock 0
                    else inventoryRecord.last_stocked_date }
              let final : Store := { s with inventory := saveInventory saved s.inventory }
              (⟨200, .inventory (populateInventory final inventoryRecord.id)⟩, final)
        | none =>
          match givenThreshold env (bodyField body "low_stock_threshold") (some 10) with
          | none => (failedToUpdateInventory, s)
          | some low_stock_threshold =>
            if env.inventoryWriteFails 0 ||
                (s.inventory.find? fun r => r.id == env.newId).isSome then
              (failedToUpdateInventory, s)
            else
              let created : Inventory :=
                { id := env.newId
                  product_id := pid
                  quantity := quantity
                  last_stocked_date := env.clock 0
                  low_stock_threshold := low_stock_threshold }
              let final : Store := { s with inventory := s.inventory ++ [created] }
              (⟨201, .inventory (populateInventory final created.id)⟩, final)
  | _ => (⟨400, .message .quantityMustBeNumber⟩, s)

/-! ## `PUT /api/products/:id` -/

/-- The write of `Product.findByIdAndUpdate`: the first product with that
`_id` is replaced. -/
def replaceProduct (p : Product) : List Product → List Product
  | [] => []
  | x :: xs => if x.id == p.id then p :: xs else x :: replaceProduct p xs

/-- The handler `productRouter.put('/:id')` (`server.js`, lines 182 to 199):
the update document is the request body; the `pre('findOneAndUpdate')` hook
sets `updated_at`; the `_id` of a document never changes. -/
def productRouter_put (env : Env) (s : Store) (id : String) (body : JVal) :
    Response × Store :=
  match env.castObjectId (.str id) with
  | none => (⟨404, .message .productInvalidId⟩, s)
  | some pid =>
    match env.castProductUpdate body with
    | none => (⟨500, .message .errorUpdatingProduct⟩, s)
    | some update =>
      match s.findProduct pid with
      | none => (⟨404, .message .productMissing⟩, s)
      | some product =>
        let updatedProduct : Product :=
          { update product with id := product.id, updated_at := env.clock 0 }
        (⟨200, .product updatedProduct⟩,
          { s with products := replaceProduct updatedProduct s.products })

/-! ## The client form `UpdateStockModal.js` -/

/-- The state `formData` of the stock form: the two inputs, as strings. -/
structure StockForm where
  quantity : String
  low_stock_threshold : String

/-- The test `isNaN(x)` on the result of `Number`, `none` standing for
`NaN`. -/
def isNaN (x : Option ℚ) : Bool := x.isNone

/-- The comparison `x < 0` on the result of `Number`: false on `NaN`. -/
def isNegative (x : Option ℚ) : Bool :=
  match x with
  | some q => decide (q < 0)
  | none => false

/-- The function `validateForm` of the stock form: the error it sets, or
`ok` when it returns `true`. The conversion `Number` of a string is the
parameter `number`, which gives a finite number or `NaN`; the strings that
`Number` converts to an infinity, such as "Infinity", are not covered. -/
def validateForm (number : String → Option ℚ) (formData : StockForm) :
    Except String Unit :=
  if formData.quantity == "" || isNaN (number formData.quantity) ||
      isNegative (number formData.quantity) then
    .error "Quantity must be a non-negative number."
  else if formData.low_stock_threshold == "" ||
      isNaN (number formData.low_stock_threshold) ||
      isNegative (number formData.low_stock_threshold) then
    .error "Low stock threshold must be a non-negative number."
  else .ok ()

/-- The JSON `JSON.stringify` makes of a number: `null` for `NaN`. -/
def jsonNumber (x : Option ℚ) : JVal :=
  match x with
  | some q => .num q
  | none => .null

/-- The handler `handleSubmit` of the stock form up to the call of
`inventoryService.updateInventory`: the error set without sending anything,
or the body `dataToUpdate` it puts. -/
def handleSubmit (number : String → Option ℚ) (formData : StockForm) :
    Except String JVal :=
  match validateForm number formData with
  | .error e => .error e
  | .ok _ =>
    .ok (.obj [("quantity", jsonNumber (number formData.quantity)),
      ("low_stock_threshold", jsonNumber (number formData.low_stock_threshold))])

/-! ## `GET /api/orders` -/

/-- The query `sort({ order_date: -1 })`: the orders by decreasing
`order_date`. Orders of the same date are kept in stored order here; MongoDB
leaves their order open. -/
def sortByDateDesc (orders : List Order) : List Order :=
  orders.insertionSort fun a b => b.order_date ≤ a.order_date

/-- The two populations of the listing, for one order. -/
def listOrder (customers : List Customer) (s : Store) (o : Order) : ListedOrder :=
  { id := o.id
    customer_id := o.customer_id.bind fun id =>
      (customers.find? fun c => c.id == id).map fun c =>
        { id := c.id, first_name := c.first_name, last_name := c.last_name,
          email := c.email }
    items := o.items.map (populateItem s)
    total_amount := o.total_amount
    status := o.status
    shipping_address := o.shipping_address
    billing_address := o.billing_address
    order_date := o.order_date }

/-- The handler `orderRouter.get('/')` (`server.js`, lines 390 to 400), with
the `Customer` collection it populates from. -/
def orderRouter_get (customers : List Customer) (s : Store) : Response × Store :=
  (⟨200, .orders ((sortByDateDesc s.orders).map (listOrder customers s))⟩, s)

/-! ## Placements that overlap

The order handler suspends at every `await`; while it waits for the
database another request may run. Two steps of a placement are kept apart
here: the reads and checks before `newOrder.save()`, and the writes from
`newOrder.save()` on. A schedule that interleaves these steps is one of the
interleavings the event loop allows. -/

/-- The order handler up to `newOrder.save()`: the check of `items` and
phase 1, which only read the store. -/
def readPhase (env : Env) (s : Store) (req : OrderRequest) : Except Response Staged :=
  match req.items with
  | .arr (item :: rest) => phase1 env s (item :: rest) ⟨0, [], []⟩
  | _ => .error ⟨400, .message .itemsRequired⟩

/-- How far a placement has come. -/
inductive Progress where
  | waiting
  | staged (acc : Staged)
  | done (r : Response)

/-- A placement in flight. -/
structure InFlight where
  env : Env
  req : OrderRequest
  progress : Progress

/-- One step of a placement against the current store: the read phase, then
the commit with what the read phase staged. -/
def InFlight.step (f : InFlight) (s : Store) : InFlight × Store :=
  match f.progress with
  | .waiting =>
    match readPhase f.env s f.req with
    | .error r => ({ f with progress := .done r }, s)
    | .ok acc => ({ f with progress := .staged acc }, s)
  | .staged acc =>
    ({ f with progress := .done (commit f.env s f.req acc).1 },
      (commit f.env s f.req acc).2)
  | .done _ => (f, s)

/-- Two placements under a schedule: `false` lets the first one take its
next step, `true` the second one. -/
def runSchedule : List Bool → Store → InFlight → InFlight → Store × InFlight × InFlight
  | [], s, a, b => (s, a, b)
  | false :: rest, s, a, b => runSchedule rest (a.step s).2 (a.step s).1 b
  | true :: rest, s, a, b => runSchedule rest (b.step s).2 a (b.step s).1

/-- The status of the response of a placement that is done. -/
def InFlight.status (f : InFlight) : Option Nat :=
  match f.progress with
  | .done r => some r.status
  | _ => none

/-! ## The page `InventoryList.js` -/

/-- The flag `isLowStock` of a row: `item.quantity <= item.low_stock_threshold`,
a threshold `null` comparing as 0. -/
def isLowStock (item : Inventory) : Bool :=
  decide (item.quantity ≤ item.low_stock_threshold.getD 0)

/-! ## The client form `CreateOrder.js` -/

/-- The state `formData` of the form. -/
structure FormData where
  customer_id : String
  shipping_address : String
  billing_address : String

/-- An entry of the state `orderItems`; `quantity` is the result of
`parseInt`, `none` standing for `NaN`. -/
structure FormItem where
  product_id : String
  name : String
  price : ℚ
  quantity : Option ℤ

/-- The code points `String.prototype.trim` strips: ECMAScript `WhiteSpace`
and `LineTerminator`. -/
def isTrimmed (c : Char) : Bool :=
  [0x9, 0xA, 0xB, 0xC, 0xD, 0x20, 0xA0, 0x1680, 0x2028, 0x2029, 0x202F, 0x205F,
    0x3000, 0xFEFF].contains c.toNat || (0x2000 ≤ c.toNat && c.toNat ≤ 0x200A)

/-- The method `String.prototype.trim`. -/
def trim (s : String) : String :=
  ⟨((s.data.dropWhile isTrimmed).reverse.dropWhile isTrimmed).reverse⟩

/-- The expression `a || b` on strings. -/
def orElse (a b : String) : String := if a ≠ "" then a else b

/-- The body `JSON.stringify` makes of `orderData`. -/
def orderData (orderItems : List FormItem) (formData : FormData) : OrderRequest :=
  { customer_id := if formData.customer_id ≠ "" then .str formData.customer_id else .null
    items := .arr (orderItems.map fun item =>
      .obj [("product_id", .str item.product_id),
        ("quantity", match item.quantity with
          | some n => .num n
          | none => .null)])
    shipping_address := .str formData.shipping_address
    billing_address := .str (orElse formData.billing_address formData.shipping_address) }

/-- The handler `handleSubmitOrder` up to the call of
`orderService.createOrder`: the error it sets without sending anything, or
the body it posts. -/
def handleSubmitOrder (orderItems : List FormItem) (formData : FormData) :
    Except String OrderRequest :=
  if orderItems.length = 0 then
    .error "Please add at least one product to the order."
  else if trim formData.shipping_address = "" then
    .error "Shipping address is required."
  else .ok (orderData orderItems formData)

/-! ## Vocabulary of the statements -/

/-- The product id an item names: its truthy `product_id`, cast. -/
def itemProductId (env : Env) (item : JVal) : Option ObjectId :=
  match item.field "product_id" with
  | some v => if v.truthy then env.castObjectId v else none
  | none => none

/-- The numeric quantity an item asks for. -/
def itemQuantity (item : JVal) : Option ℚ :=
  match item.field "quantity" with
  | some (.num q) => some q
  | _ => none

/-- The available quantity of a product: that of its inventory record, 0
without a record. -/
def available (s : Store) (pid : ObjectId) : ℚ :=
  match findInventory s.inventory pid with
  | some r => r.quantity
  | none => 0

/-- The sum of `price_per_unit * quantity` over line items. -/
def lineTotal (items : List OrderItem) : ℚ :=
  (items.map fun i => i.price_per_unit * i.quantity).sum

/-- The inventory after the staged writes `us`, numbered from `j`, all went
through. -/
def applyWrites (env : Env) : Nat → List InventoryUpdate → List Inventory →
    List Inventory
  | _, [], inv => inv
  | j, u :: us, inv =>
    applyWrites env (j + 1) us
      (findOneAndUpdate u.productId u.newQuantity (env.clock (j + 1)) inv)

/-- What a placement may change of an inventory record: nothing when the
product is not among `named`, and in any case neither the record id, nor the
product, nor the threshold. -/
def Untouched (named : List ObjectId) (r r' : Inventory) : Prop :=
  r'.id = r.id ∧ r'.product_id = r.product_id ∧
    r'.low_stock_threshold = r.low_stock_threshold ∧ (r.product_id ∉ named → r' = r)

/-- Two items that agree on `product_id` and `quantity`. -/
def SameLine (item item' : JVal) : Prop :=
  item.field "product_id" = item'.field "product_id" ∧
    item.field "quantity" = item'.field "quantity"

/-- The product an item resolves to: the document
`Product.findById(item.product_id)` returns. -/
def itemProduct (env : Env) (s : Store) (item : JVal) : Option Product :=
  match item.field "product_id" with
  | some v =>
    match idCondition env v with
    | some matching => s.products.find? (fun p => matching p.id)
    | none => none
  | none => none

/-- What an item that passes phase 1 contributes: the line item and the
staged write. Its truthy `product_id` selects a product and an inventory
record, it asks for a positive quantity, and the record holds at least that
quantity. -/
def Taken (env : Env) (s : Store) (item : JVal) (li : OrderItem)
    (u : InventoryUpdate) : Prop :=
  ∃ v q matching product inventory,
    item.field "product_id" = some v ∧ v.truthy = true ∧
    item.field "quantity" = some (.num q) ∧ 0 < q ∧
    idCondition env v = some matching ∧
    s.products.find? (fun p => matching p.id) = some product ∧
    s.inventory.find? (fun r => matching r.product_id) = some inventory ∧
    q ≤ inventory.quantity ∧
    li = ⟨product.id, q, product.price⟩ ∧ u = ⟨product.id, inventory.quantity - q⟩

/-- What an accepted item that names its product by an object id
contributes: the line item and the staged write.
The item names a product that exists, asks for a positive quantity, and the
inventory record of the product holds at least that quantity. -/
def Accepted (env : Env) (s : Store) (item : JVal) (li : OrderItem)
    (u : InventoryUpdate) : Prop :=
  ∃ pid q product inventory,
    itemProductId env item = some pid ∧ itemQuantity item = some q ∧ 0 < q ∧
    s.findProduct pid = some product ∧
    findInventory s.inventory pid = some inventory ∧ q ≤ inventory.quantity ∧
    li = ⟨pid, q, product.price⟩ ∧ u = ⟨pid, inventory.quantity - q⟩

/-- An item that asks for more than is available of the product it names. -/
def OverAsks (env : Env) (s : Store) (item : JVal) : Prop :=
  ∃ pid q, itemProductId env item = some pid ∧ itemQuantity item = some q ∧
    available s pid < q

/-! ## A concrete store and environment, for evaluation -/

/-- Strings of 24 hexadecimal digits, which every Mongoose version casts to
an `ObjectId`. -/
def isHex24 (s : String) : Bool :=
  s.length == 24 && s.data.all fun c => c.isDigit || ('a' ≤ c && c ≤ 'f')

/-- An environment without database failures; it casts the strings of 24
hexadecimal digits to object ids and nothing else, takes the query operator
`{ "$ne": null }`, which every object id passes, and no other, and takes the
product updates that set a numeric `price` or nothing. -/
def env0 : Env :=
  { castObjectId := fun v =>
      match v with
      | .str s => if isHex24 s then some s else none
      | _ => none
    castIdOperators := fun v =>
      match v with
      | .obj [("$ne", .null)] => some fun _ => true
      | _ => none
    castString := fun _ => none
    newId := "0123456789abcdef01234567"
    clock := fun k => 1700000000000 + k
    orderSaveFails := false
    inventoryWriteFails := fun _ => false
    castNumber := fun _ => none
    castProductUpdate := fun body =>
      match bodyField body "price" with
      | .num q => some fun p => { p with price := q }
      | .undefined => some fun p => p
      | _ => none }

/-- Identifier of product A. -/
def idA : ObjectId := "aaaaaaaaaaaaaaaaaaaaaaaa"

/-- Identifier of product B. -/
def idB : ObjectId := "bbbbbbbbbbbbbbbbbbbbbbbb"

/-- Product A at 10.00 with 5 in stock, product B at 5.00 with 3 in stock, no
order. -/
def store0 : Store :=
  { products :=
      [{ id := idA, name := "A", description := none, price := 10, image_url := none,
         category := none, created_at := 0, updated_at := 0 },
       { id := idB, name := "B", description := none, price := 5, image_url := none,
         category := none, created_at := 0, updated_at := 0 }]
    inventory :=
      [{ id := "111111111111111111111111", product_id := idA, quantity := 5,
         last_stocked_date := 0, low_stock_threshold := some 10 },
       { id := "222222222222222222222222", product_id := idB, quantity := 3,
         last_stocked_date := 0, low_stock_threshold := some 10 }]
    orders := [] }

/-- The store after an order of 2 A and 1 B was placed in `store0`. -/
def store1 : Store :=
  { products := store0.products
    inventory :=
      [{ id := "111111111111111111111111", product_id := idA, quantity := 3,
         last_stocked_date := 1700000000001, low_stock_threshold := some 10 },
       { id := "222222222222222222222222", product_id := idB, quantity := 2,
         last_stocked_date := 1700000000002, low_stock_threshold := some 10 }]
    orders :=
      [{ id := "0123456789abcdef01234567", customer_id := none,
         items := [⟨idA, 2, 10⟩, ⟨idB, 1, 5⟩], total_amount := 25, status := "Pending",
         shipping_address := some "12 Main St", billing_address := none,
         order_date := 1700000000000 }] }

/-- Identifier of product C. -/
def idC : ObjectId := "cccccccccccccccccccccccc"

/-- The store `store0` with a product C at 7.00 that has no inventory
record. -/
def store2 : Store :=
  { store0 with
    products := store0.products ++
      [{ id := idC, name := "C", description := none, price := 7, image_url := none,
         category := none, created_at := 0, updated_at := 0 }] }

/-- A store whose first product, C at 7.00, has no inventory record, with the
products and the inventory records of `store0` after it. -/
def store5 : Store :=
  { store0 with
    products :=
      { id := idC, name := "C", description := none, price := 7, image_url := none,
        category := none, created_at := 0, updated_at := 0 } :: store0.products }

/-- Identifier of product D. -/
def idD : ObjectId := "dddddddddddddddddddddddd"

/-- A store with one product D at 4.00 of which 1 is in stock, no order. -/
def store3 : Store :=
  { products :=
      [{ id := idD, name := "D", description := none, price := 4, image_url := none,
         category := none, created_at := 0, updated_at := 0 }]
    inventory :=
      [{ id := "333333333333333333333333", product_id := idD, quantity := 1,
         last_stocked_date := 0, low_stock_threshold := some 10 }]
    orders := [] }

/-- The environment `env0` with another generated `_id`. -/
def env1 : Env := { env0 with newId := "0123456789abcdef01234568" }

/-- The environment `env0` in which the database refuses inventory write
number 1, the second one. -/
def envFail1 : Env := { env0 with inventoryWriteFails := fun k => k == 1 }

/-- Three orders dated 20, 10 and 30. -/
def store4 : Store :=
  { store0 with
    orders :=
      [{ id := "0000000000000000000000a1", customer_id := none, items := [⟨idA, 1, 10⟩],
         total_amount := 10, status := "Pending", shipping_address := some "a",
         billing_address := none, order_date := 20 },
       { id := "0000000000000000000000a2", customer_id := none, items := [⟨idB, 1, 5⟩],
         total_amount := 5, status := "Shipped", shipping_address := some "b",
         billing_address := none, order_date := 10 },
       { id := "0000000000000000000000a3", customer_id := none, items := [⟨idA, 2, 10⟩],
         total_amount := 20, status := "Pending", shipping_address := some "c",
         billing_address := none, order_date := 30 }] }

/-- The conversion `Number` on the strings the examples use; every other
string is taken as not numeric. -/
def number0 (s : String) : Option ℚ :=
  if s = "5" then some 5
  else if s = "10" then some 10
  else if s = "1.5" then some (3 / 2)
  else if s = "-3" then some (-3)
  else none

/-- A line `{ product_id, quantity }` of a request. -/
def line (pid : String) (q : ℚ) : JVal :=
  .obj [("product_id", .str pid), ("quantity", .num q)]

/-- A line whose `product_id` is the query operator `{ "$ne": null }`. -/
def operatorLine (q : ℚ) : JVal :=
  .obj [("product_id", .obj [("$ne", .null)]), ("quantity", .num q)]

/-- A request with the given items, shipped to "12 Main St". -/
def request (items : List JVal) : OrderRequest :=
  { customer_id := .undefined, items := .arr items,
    shipping_address := .str "12 Main St", billing_address := .undefined }

/-! ## Theorems -/

/-! ### Phase 1 -/

theorem findProduct_id {s : Store} {pid : ObjectId} {product : Product}
    (h : s.findProduct pid = some product) : product.id = pid := by
  have := List.find?_some h
  simpa using this

theorem itemProductId_some {env : Env} {item : JVal} {pid : ObjectId}
    (h : itemProductId env item = some pid) :
    ∃ v, item.field "product_id" = some v ∧ v.truthy = true ∧
      env.castObjectId v = some pid := by
  unfold itemProductId at h
  split at h
  · next v hv =>
    split at h
    · next ht => exact ⟨v, hv, ht, h⟩
    · cases h
  · cases h

theorem itemQuantity_some {item : JVal} {q : ℚ} (h : itemQuantity item = some q) :
    item.field "quantity" = some (.num q) := by
  unfold itemQuantity at h
  split at h
  · next q' hq => injection h with h; rw [hq, h]
  · cases h

theorem idCondition_of_cast {env : Env} {v : JVal} {pid : ObjectId}
    (h : env.castObjectId v = some pid) :
    idCondition env v = some fun x => x == pid := by
  simp [idCondition, h]

/-- An item that names its product by an object id selects the product with
that id and its inventory record. -/
theorem accepted_of_taken {env : Env} {s : Store} {item : JVal} {li : OrderItem}
    {u : InventoryUpdate} {pid : ObjectId} (h : Taken env s item li u)
    (hpid : itemProductId env item = some pid) : Accepted env s item li u := by
  obtain ⟨v, q, matching, product, inventory, hv, -, hq, hpos, hcond, hprod, hinv, hle,
    rfl, rfl⟩ := h
  obtain ⟨v', hv', -, hcast⟩ := itemProductId_some hpid
  rw [hv] at hv'
  injection hv' with hv'
  subst hv'
  rw [idCondition_of_cast hcast] at hcond
  injection hcond with hcond
  subst hcond
  have hprod' : s.findProduct pid = some product := hprod
  have hinv' : findInventory s.inventory pid = some inventory := hinv
  have hid := findProduct_id hprod'
  refine ⟨pid, q, product, inventory, hpid, ?_, hpos, hprod', hinv', hle, ?_, ?_⟩
  · simp [itemQuantity, hq]
  · rw [hid]
  · rw [hid]

theorem taken_of_accepted {env : Env} {s : Store} {item : JVal} {li : OrderItem}
    {u : InventoryUpdate} (h : Accepted env s item li u) : Taken env s item li u := by
  obtain ⟨pid, q, product, inventory, hpid, hq, hpos, hprod, hinv, hle, rfl, rfl⟩ := h
  obtain ⟨v, hv, htr, hcast⟩ := itemProductId_some hpid
  have hid := findProduct_id hprod
  refine ⟨v, q, fun x => x == pid, product, inventory, hv, htr, itemQuantity_some hq,
    hpos, idCondition_of_cast hcast, hprod, hinv, hle, ?_, ?_⟩
  · rw [hid]
  · rw [hid]

theorem checkItem_ok {env : Env} {s : Store} {acc acc' : Staged} {item : JVal}
    (h : checkItem env s acc item = .ok acc') :
    ∃ li u, Taken env s item li u ∧
      acc' = ⟨acc.calculatedTotalAmount + li.price_per_unit * li.quantity,
        acc.orderItemsData ++ [li], acc.inventoryUpdates ++ [u]⟩ := by
  unfold checkItem at h
  split at h
  · next v qty hv hq =>
    split at h
    · cases h
    · next hck =>
      split at h
      · next q =>
        split at h
        · cases h
        · next hpos =>
          split at h
          · cases h
          · next matching hcond =>
            split at h
            · cases h
            · next product hprod =>
              split at h
              · cases h
              · next inventory hinv =>
                split at h
                · cases h
                · next hlt =>
                  injection h with h
                  simp only [JVal.isUndefined, Bool.or_false, Bool.not_eq_true',
                    Bool.not_eq_false] at hck
                  exact ⟨⟨product.id, q, product.price⟩,
                    ⟨product.id, inventory.quantity - q⟩,
                    ⟨v, q, matching, product, inventory, hv, hck, hq, not_le.mp hpos,
                      hcond, hprod, hinv, not_lt.mp hlt, rfl, rfl⟩, h.symm⟩
      · cases h
  · cases h

theorem checkItem_of_taken {env : Env} {s : Store} {item : JVal} {li : OrderItem}
    {u : InventoryUpdate} (h : Taken env s item li u) (acc : Staged) :
    checkItem env s acc item =
      .ok ⟨acc.calculatedTotalAmount + li.price_per_unit * li.quantity,
        acc.orderItemsData ++ [li], acc.inventoryUpdates ++ [u]⟩ := by
  obtain ⟨v, q, matching, product, inventory, hv, htr, hq, hpos, hcond, hprod, hinv, hle,
    rfl, rfl⟩ := h
  unfold checkItem
  simp [hv, hq, htr, JVal.isUndefined, hcond, hprod, hinv, not_le.mpr hpos,
    not_lt.mpr hle]

theorem checkItem_of_accepted {env : Env} {s : Store} {item : JVal} {li : OrderItem}
    {u : InventoryUpdate} (h : Accepted env s item li u) (acc : Staged) :
    checkItem env s acc item =
      .ok ⟨acc.calculatedTotalAmount + li.price_per_unit * li.quantity,
        acc.orderItemsData ++ [li], acc.inventoryUpdates ++ [u]⟩ :=
  checkItem_of_taken (taken_of_accepted h) acc

/-- Every response phase 1 stops with is an error response. -/
theorem checkItem_error_status {env : Env} {s : Store} {acc : Staged} {item : JVal}
    {r : Response} (h : checkItem env s acc item = .error r) :
    r.status = 400 ∨ r.status = 404 ∨ r.status = 500 := by
  unfold checkItem at h
  repeat' split at h
  all_goals cases h <;> simp [failedToCreate]

theorem phase1_error_status {env : Env} {s : Store} {r : Response} :
    ∀ (items : List JVal) (acc : Staged), phase1 env s items acc = .error r →
      r.status = 400 ∨ r.status = 404 ∨ r.status = 500
  | [], acc, h => by simp [phase1] at h
  | item :: rest, acc, h => by
    unfold phase1 at h
    split at h
    · next r' hr =>
      injection h with h
      subst h
      exact checkItem_error_status hr
    · exact phase1_error_status rest _ h

/-- Phase 1 that runs to its end has taken every item, in order. -/
theorem phase1_ok {env : Env} {s : Store} :
    ∀ (items : List JVal) (acc acc' : Staged), phase1 env s items acc = .ok acc' →
      ∃ lus : List (OrderItem × InventoryUpdate),
        List.Forall₂ (fun item lu => Taken env s item lu.1 lu.2) items lus ∧
        acc'.orderItemsData = acc.orderItemsData ++ lus.map Prod.fst ∧
        acc'.inventoryUpdates = acc.inventoryUpdates ++ lus.map Prod.snd ∧
        acc'.calculatedTotalAmount =
          acc.calculatedTotalAmount + lineTotal (lus.map Prod.fst)
  | [], acc, acc', h => by
    simp only [phase1, Except.ok.injEq] at h
    subst h
    exact ⟨[], List.Forall₂.nil, by simp, by simp, by simp [lineTotal]⟩
  | item :: rest, acc, acc', h => by
    unfold phase1 at h
    split at h
    · cases h
    · next acc1 h1 =>
      obtain ⟨li, u, hacc, rfl⟩ := checkItem_ok h1
      obtain ⟨lus, hall, hitems, hupd, htot⟩ := phase1_ok rest _ acc' h
      refine ⟨(li, u) :: lus, List.Forall₂.cons hacc hall, ?_, ?_, ?_⟩
      · simpa using hitems
      · simpa using hupd
      · rw [htot]
        simp [lineTotal, add_assoc]

theorem phase1_of_accepted {env : Env} {s : Store} (items : List JVal)
    (lus : List (OrderItem × InventoryUpdate)) (acc : Staged)
    (h : List.Forall₂ (fun item lu => Accepted env s item lu.1 lu.2) items lus) :
    phase1 env s items acc =
      .ok ⟨acc.calculatedTotalAmount + lineTotal (lus.map Prod.fst),
        acc.orderItemsData ++ lus.map Prod.fst,
        acc.inventoryUpdates ++ lus.map Prod.snd⟩ := by
  induction h generalizing acc with
  | nil => simp [phase1, lineTotal]
  | cons ha _ ih =>
    unfold phase1
    rw [checkItem_of_accepted ha acc]
    simp only
    rw [ih]
    simp [lineTotal, add_assoc]

/-! ### Phases 2 and 3 -/

theorem newOrder_some {env : Env} {req : OrderRequest} {acc : Staged} {order : Order}
    (h : newOrder env req acc = some order) :
    order.id = env.newId ∧ order.items = acc.orderItemsData ∧
      order.total_amount = acc.calculatedTotalAmount ∧ order.status = "Pending" ∧
      castStringPath env req.shipping_address = some order.shipping_address ∧
      castStringPath env req.billing_address = some order.billing_address ∧
      ∀ i ∈ order.items, 1 ≤ i.quantity := by
  unfold newOrder at h
  split at h
  · next c sa ba hc hsa hba =>
    split at h
    · next hall =>
      injection h with h
      subst h
      refine ⟨rfl, rfl, rfl, rfl, hsa, hba, ?_⟩
      intro i hi
      simpa using List.all_eq_true.mp hall i hi
    · cases h
  · cases h

theorem findOrder_append_new {orders : List Order} {order : Order}
    (h : findOrder orders order.id = none) :
    findOrder (orders ++ [order]) order.id = some order := by
  unfold findOrder at h ⊢
  rw [List.find?_append, h]
  simp

theorem commit_status (env : Env) (s : Store) (req : OrderRequest) (acc : Staged) :
    (commit env s req acc).1.status = 201 ∨ (commit env s req acc).1.status = 500 := by
  unfold commit
  split
  · right; rfl
  · split
    · right; rfl
    · dsimp only
      split
      · left; rfl
      · right; rfl

/-- A commit answered 201: the order passed validation, was appended, and
every staged write went through. -/
theorem commit_created {env : Env} {s : Store} {req : OrderRequest} {acc : Staged}
    (h : (commit env s req acc).1.status = 201) :
    ∃ order inv, newOrder env req acc = some order ∧
      findOrder s.orders order.id = none ∧ env.orderSaveFails = false ∧
      phase3 env 0 acc.inventoryUpdates s.inventory = (inv, true) ∧
      commit env s req acc =
        (⟨201, .order (some (populate ⟨s.products, inv, s.orders ++ [order]⟩ order))⟩,
          ⟨s.products, inv, s.orders ++ [order]⟩) := by
  unfold commit at h ⊢
  split at h
  · simp [failedToCreate] at h
  · next order hnew =>
    split at h
    · simp [failedToCreate] at h
    · next hsave =>
      simp only [Bool.or_eq_true, Option.isSome_iff_ne_none, ne_eq, not_or,
        Bool.not_eq_true, not_not] at hsave
      dsimp only at h
      split at h
      · next hp =>
        refine ⟨order, _, hnew, hsave.2, hsave.1, Prod.ext rfl hp, ?_⟩
        simp only [hsave.1, hsave.2, hp, Option.isSome_none, Bool.or_self,
          Bool.false_eq_true, ↓reduceIte, findOrder_append_new hsave.2, Option.map_some']
      · simp [failedToCreate] at h

/-- The inventory a commit leaves is the one it found or the one phase 3
wrote; the products are untouched. -/
theorem commit_inventory (env : Env) (s : Store) (req : OrderRequest) (acc : Staged) :
    (commit env s req acc).2.inventory = s.inventory ∨
      (commit env s req acc).2.inventory =
        (phase3 env 0 acc.inventoryUpdates s.inventory).1 := by
  unfold commit
  split
  · left; rfl
  · split
    · left; rfl
    · dsimp only
      split
      · right; rfl
      · right; rfl

theorem findOneAndUpdate_nonneg (pid : ObjectId) (q : ℚ) (t : Timestamp) (hq : 0 ≤ q) :
    ∀ inv : List Inventory, (∀ r ∈ inv, 0 ≤ r.quantity) →
      ∀ r ∈ findOneAndUpdate pid q t inv, 0 ≤ r.quantity
  | [], _, r, hr => by simp [findOneAndUpdate] at hr
  | r0 :: rs, h, r, hr => by
    unfold findOneAndUpdate at hr
    split at hr
    · rcases List.mem_cons.mp hr with rfl | hr
      · exact hq
      · exact h r (List.mem_cons_of_mem _ hr)
    · rcases List.mem_cons.mp hr with rfl | hr
      · exact h r (List.mem_cons_self _ _)
      · exact findOneAndUpdate_nonneg pid q t hq rs
          (fun x hx => h x (List.mem_cons_of_mem _ hx)) r hr

theorem phase3_nonneg (env : Env) :
    ∀ (k : Nat) (us : List InventoryUpdate) (inv : List Inventory),
      (∀ u ∈ us, 0 ≤ u.newQuantity) → (∀ r ∈ inv, 0 ≤ r.quantity) →
      ∀ r ∈ (phase3 env k us inv).1, 0 ≤ r.quantity
  | _, [], inv, _, h => by simpa [phase3] using h
  | k, u :: us, inv, hu, h => by
    unfold phase3
    split
    · exact h
    · exact phase3_nonneg env (k + 1) us _
        (fun x hx => hu x (List.mem_cons_of_mem _ hx))
        (findOneAndUpdate_nonneg _ _ _ (hu u (List.mem_cons_self _ _)) inv h)

theorem taken_newQuantity_nonneg {env : Env} {s : Store} {items : List JVal}
    {lus : List (OrderItem × InventoryUpdate)}
    (h : List.Forall₂ (fun item lu => Taken env s item lu.1 lu.2) items lus) :
    ∀ u ∈ lus.map Prod.snd, 0 ≤ u.newQuantity := by
  induction h with
  | nil => simp
  | cons ha _ ih =>
    intro u hu
    rw [List.map_cons, List.mem_cons] at hu
    rcases hu with rfl | hu
    · obtain ⟨v, q, matching, product, inventory, -, -, -, -, -, -, -, hle, -, hu⟩ := ha
      rw [hu]
      exact sub_nonneg.mpr hle
    · exact ih u hu

/-- C1. When placement answers 201, exactly one order was appended to the
ledger, the response carries that order populated, and its `total_amount` is
the exact sum of `price_per_unit * quantity` over its line items. -/
theorem post_total_is_line_sum (env : Env) (s : Store) (req : OrderRequest)
    (h : (orderRouter_post env s req).1.status = 201) :
    ∃ order : Order,
      (orderRouter_post env s req).2.orders = s.orders ++ [order] ∧
      (orderRouter_post env s req).1.body =
        .order (some (populate (orderRouter_post env s req).2 order)) ∧
      order.total_amount =
        (order.items.map fun i => i.price_per_unit * i.quantity).sum := by
  unfold orderRouter_post at h ⊢
  split at h
  · next item rest hitems =>
    split at h
    · next r hr =>
      rcases phase1_error_status _ _ hr with h' | h' | h' <;> simp_all
    · next acc hacc =>
      obtain ⟨order, inv, hnew, -, -, -, hc⟩ := commit_created h
      obtain ⟨lus, -, hi, -, ht⟩ := phase1_ok _ _ _ hacc
      obtain ⟨-, hoi, hot, -⟩ := newOrder_some hnew
      refine ⟨order, ?_, ?_, ?_⟩
      · simp only [hitems, hacc, hc]
      · simp only [hitems, hacc, hc]
      · rw [hot, hoi, ht, hi]
        simp [lineTotal]
  · simp at h

/-- C2. When placement answers 400 (validation or insufficient stock) or 404
(product not found), the store it leaves is the store it found: products,
inventory records and orders are all unchanged. -/
theorem post_rejection_writes_nothing (env : Env) (s : Store) (req : OrderRequest)
    (h : (orderRouter_post env s req).1.status = 400 ∨
      (orderRouter_post env s req).1.status = 404) :
    (orderRouter_post env s req).2 = s := by
  unfold orderRouter_post at h ⊢
  split
  · next item rest hitems =>
    simp only [hitems] at h
    split
    · rfl
    · next acc hacc =>
      simp only [hacc] at h
      rcases commit_status env s req acc with h' | h' <;> omega
  · rfl

/-- C4. Placement keeps the inventory non-negative: if every inventory
quantity is at least 0 before the call, every inventory quantity is at least
0 in the store the call leaves, whatever the request, the response, and the
writes the database refuses. -/
theorem post_inventory_nonneg (env : Env) (s : Store) (req : OrderRequest)
    (h : ∀ r ∈ s.inventory, 0 ≤ r.quantity) :
    ∀ r ∈ (orderRouter_post env s req).2.inventory, 0 ≤ r.quantity := by
  unfold orderRouter_post
  split
  · split
    · exact h
    · next acc hacc =>
      obtain ⟨lus, hall, -, hu, -⟩ := phase1_ok _ _ _ hacc
      rcases commit_inventory env s req acc with hc | hc
      · rw [hc]; exact h
      · rw [hc]
        refine phase3_nonneg env 0 _ _ ?_ h
        rw [hu, List.nil_append]
        exact taken_newQuantity_nonneg hall
  · exact h


theorem post_total_is_line_sum_witness :
    ∃ order : Order,
      (orderRouter_post env0 store0 (request [line idA 2, line idB 1])).2.orders =
        store0.orders ++ [order] ∧
      (orderRouter_post env0 store0 (request [line idA 2, line idB 1])).1.body =
        .order (some (populate
          (orderRouter_post env0 store0 (request [line idA 2, line idB 1])).2 order)) ∧
      order.total_amount =
        (order.items.map fun i => i.price_per_unit * i.quantity).sum :=
  post_total_is_line_sum env0 store0 (request [line idA 2, line idB 1]) (by decide)

theorem post_rejection_writes_nothing_witness :
    (orderRouter_post env0 store0 (request [line idA 6])).2 = store0 :=
  post_rejection_writes_nothing env0 store0 (request [line idA 6]) (Or.inl (by decide))

theorem post_inventory_nonneg_witness :
    ((orderRouter_post env0 store0 (request [line idA 5, line idB 1])).2.inventory.all
      fun r => decide (0 ≤ r.quantity)) = true :=
  List.all_eq_true.mpr fun r hr =>
    decide_eq_true
      (post_inventory_nonneg env0 store0 (request [line idA 5, line idB 1]) (by decide) r hr)

/-! ### Items that ask for more than is available -/

theorem forall₂_exists_mem_of_mem {α β : Type} {R : α → β → Prop} {l₁ : List α}
    {l₂ : List β} (h : List.Forall₂ R l₁ l₂) {a : α} (ha : a ∈ l₁) :
    ∃ b ∈ l₂, R a b := by
  induction h with
  | nil => cases ha
  | cons hr _ ih =>
    rcases List.mem_cons.mp ha with rfl | ha
    · exact ⟨_, List.mem_cons_self _ _, hr⟩
    · obtain ⟨b, hb, hab⟩ := ih ha
      exact ⟨b, List.mem_cons_of_mem _ hb, hab⟩

theorem not_accepted_of_overAsks {env : Env} {s : Store} {item : JVal}
    (h : OverAsks env s item) (li : OrderItem) (u : InventoryUpdate) :
    ¬ Accepted env s item li u := by
  rintro ⟨pid, q, product, inventory, hpid, hq, -, -, hinv, hle, -, -⟩
  obtain ⟨pid', q', hpid', hq', hlt⟩ := h
  rw [hpid] at hpid'
  rw [hq] at hq'
  injection hpid' with hpid'
  injection hq' with hq'
  subst hpid' hq'
  simp only [available, hinv] at hlt
  exact absurd hle (not_le.mpr hlt)

theorem phase1_error_of_overAsks {env : Env} {s : Store} {items : List JVal}
    {item : JVal} (hmem : item ∈ items) (h : OverAsks env s item) (acc : Staged) :
    ∃ r, phase1 env s items acc = .error r := by
  cases hp : phase1 env s items acc with
  | error r => exact ⟨r, rfl⟩
  | ok acc' =>
    obtain ⟨lus, hall, -⟩ := phase1_ok _ _ _ hp
    obtain ⟨lu, -, hlu⟩ := forall₂_exists_mem_of_mem hall hmem
    obtain ⟨pid, q, hpid, -, -⟩ := id h
    exact absurd (accepted_of_taken hlu hpid) (not_accepted_of_overAsks h _ _)

theorem phase1_append {env : Env} {s : Store} (rest : List JVal) :
    ∀ (pre : List JVal) (acc acc' : Staged), phase1 env s pre acc = .ok acc' →
      phase1 env s (pre ++ rest) acc = phase1 env s rest acc'
  | [], acc, acc', h => by
    simp only [phase1, Except.ok.injEq] at h
    subst h
    rfl
  | item :: pre, acc, acc', h => by
    rw [List.cons_append]
    cases h1 : checkItem env s acc item with
    | error r => simp [phase1, h1] at h
    | ok acc1 =>
      simp only [phase1, h1] at h ⊢
      exact phase1_append rest pre _ _ h

theorem post_of_phase1_error {env : Env} {s : Store} {req : OrderRequest}
    {items : List JVal} {r : Response} (hitems : req.items = .arr items)
    (h : phase1 env s items ⟨0, [], []⟩ = .error r) :
    orderRouter_post env s req = (r, s) := by
  unfold orderRouter_post
  cases items with
  | nil => simp [phase1] at h
  | cons item rest => simp only [hitems, h]

theorem checkItem_insufficient {env : Env} {s : Store} {item : JVal} {pid : ObjectId}
    {q : ℚ} {product : Product} (hpid : itemProductId env item = some pid)
    (hq : itemQuantity item = some q) (hpos : 0 < q)
    (hprod : s.findProduct pid = some product) (hlt : available s pid < q)
    (acc : Staged) :
    checkItem env s acc item =
      .error ⟨400, .message (.insufficientStock product.name q (available s pid))⟩ := by
  obtain ⟨v, hv, htr, hcast⟩ := itemProductId_some hpid
  have hq' := itemQuantity_some hq
  have hprod' : s.products.find? (fun p => p.id == pid) = some product := hprod
  unfold checkItem
  unfold available at hlt ⊢
  cases hinv : findInventory s.inventory pid with
  | none =>
    have hinv' : s.inventory.find? (fun r => r.product_id == pid) = none := hinv
    simp [hv, hq', htr, JVal.isUndefined, idCondition, hcast, hprod', hinv',
      not_le.mpr hpos]
  | some inventory =>
    have hinv' : s.inventory.find? (fun r => r.product_id == pid) = some inventory := hinv
    rw [hinv] at hlt
    simp only at hlt
    simp [hv, hq', htr, JVal.isUndefined, idCondition, hcast, hprod', hinv',
      not_le.mpr hpos, hlt]

/-- C3, as stated, fails: the second item asks for 100 of product A, of
which 5 are available, but the first item names a product that does not
exist, and the response is the 404 "product not found" of the first item. -/
theorem post_overask_answered_not_found :
    OverAsks env0 store0 (line idA 100) ∧
      (orderRouter_post env0 store0
          (request [line "cccccccccccccccccccccccc" 1, line idA 100])).1.status = 404 ∧
      (orderRouter_post env0 store0
          (request [line "cccccccccccccccccccccccc" 1, line idA 100])).1.body =
        .message (.productNotFound (.str "cccccccccccccccccccccccc")) := by
  refine ⟨⟨idA, 100, by decide, by decide, by decide⟩, by decide, ?_⟩
  rfl

/-- C3, amended. A request in which some item, at any position, names its
product by an object id and asks for more than is available of that product
is never answered 201 and leaves the store as it was (no inventory write, no
order). The response is the
insufficient-stock error, with the product name, the requested and the
available quantity, when every earlier item is accepted and the item itself
asks for a positive quantity of an existing product; otherwise the error of
the first failing check is returned. -/
theorem post_overask_rejected (env : Env) (s : Store) (req : OrderRequest)
    (pre rest : List JVal) (item : JVal) (pid : ObjectId) (q : ℚ)
    (hitems : req.items = .arr (pre ++ item :: rest))
    (hpid : itemProductId env item = some pid) (hq : itemQuantity item = some q)
    (hlt : available s pid < q) :
    (orderRouter_post env s req).1.status ≠ 201 ∧
      (orderRouter_post env s req).2 = s ∧
      ∀ acc product, phase1 env s pre ⟨0, [], []⟩ = .ok acc → 0 < q →
        s.findProduct pid = some product →
        (orderRouter_post env s req).1 =
          ⟨400, .message (.insufficientStock product.name q (available s pid))⟩ := by
  have hmem : item ∈ pre ++ item :: rest :=
    List.mem_append_right _ (List.mem_cons_self _ _)
  obtain ⟨r, hr⟩ := phase1_error_of_overAsks hmem ⟨pid, q, hpid, hq, hlt⟩
    (⟨0, [], []⟩ : Staged)
  rw [post_of_phase1_error hitems hr]
  refine ⟨?_, rfl, ?_⟩
  · rcases phase1_error_status _ _ hr with h | h | h <;> simp [h]
  · intro acc product hpre hpos hprod
    rw [phase1_append _ _ _ _ hpre] at hr
    unfold phase1 at hr
    rw [checkItem_insufficient hpid hq hpos hprod hlt] at hr
    injection hr with hr
    exact hr.symm

theorem post_overask_rejected_witness :
    (orderRouter_post env0 store0 (request [line idB 1, line idA 6])).1.status ≠ 201 ∧
      (orderRouter_post env0 store0 (request [line idB 1, line idA 6])).2 = store0 ∧
      (orderRouter_post env0 store0 (request [line idB 1, line idA 6])).1 =
        ⟨400, .message (.insufficientStock "A" 6 5)⟩ :=
  have h := post_overask_rejected env0 store0 (request [line idB 1, line idA 6])
    [line idB 1] [] (line idA 6) idA 6 rfl (by decide) (by decide) (by decide)
  ⟨h.1, h.2.1, h.2.2 _ _ rfl (by decide) rfl⟩

/-! ### The staged writes -/

theorem findInventory_findOneAndUpdate_same (pid : ObjectId) (q : ℚ) (t : Timestamp) :
    ∀ (inv : List Inventory) (r : Inventory), findInventory inv pid = some r →
      findInventory (findOneAndUpdate pid q t inv) pid =
        some { r with quantity := q, last_stocked_date := t }
  | [], r, h => by simp [findInventory] at h
  | r0 :: rs, r, h => by
    unfold findInventory at h ⊢
    unfold findOneAndUpdate
    rw [List.find?_cons] at h
    split at h
    · next hid =>
      injection h with h
      subst h
      simp [hid]
    · next hid =>
      simp only [hid, Bool.false_eq_true, ↓reduceIte, List.find?_cons]
      exact findInventory_findOneAndUpdate_same pid q t rs r h

theorem findInventory_findOneAndUpdate_other (pid : ObjectId) (q : ℚ) (t : Timestamp)
    {pid' : ObjectId} (hne : pid' ≠ pid) :
    ∀ inv : List Inventory,
      findInventory (findOneAndUpdate pid q t inv) pid' = findInventory inv pid'
  | [] => rfl
  | r0 :: rs => by
    unfold findOneAndUpdate
    split
    · next hid =>
      have hid' : r0.product_id = pid := by simpa using hid
      have hb : (pid == pid') = false := by
        simp only [beq_eq_false_iff_ne, ne_eq]
        exact fun h => hne h.symm
      simp only [findInventory, List.find?_cons, hid', hb]
    · have ih := findInventory_findOneAndUpdate_other pid q t hne rs
      unfold findInventory at ih ⊢
      simp only [List.find?_cons, ih]

theorem phase3_complete (env : Env) (hw : ∀ k, env.inventoryWriteFails k = false) :
    ∀ (k : Nat) (us : List InventoryUpdate) (inv : List Inventory),
      (phase3 env k us inv).2 = true
  | _, [], _ => rfl
  | k, u :: us, inv => by
    unfold phase3
    simp only [hw k, Bool.false_eq_true, ↓reduceIte]
    exact phase3_complete env hw (k + 1) us _

theorem phase3_other (env : Env) {pid : ObjectId} :
    ∀ (k : Nat) (us : List InventoryUpdate) (inv : List Inventory),
      pid ∉ us.map InventoryUpdate.productId →
      findInventory (phase3 env k us inv).1 pid = findInventory inv pid
  | _, [], _, _ => rfl
  | k, u :: us, inv, h => by
    rw [List.map_cons, List.mem_cons, not_or] at h
    unfold phase3
    split
    · rfl
    · rw [phase3_other env (k + 1) us _ h.2,
        findInventory_findOneAndUpdate_other _ _ _ h.1]

/-- When no write is refused and no product is staged twice, every staged
product that has a record ends with its staged quantity. -/
theorem phase3_quantity (env : Env) (hw : ∀ k, env.inventoryWriteFails k = false) :
    ∀ (k : Nat) (us : List InventoryUpdate) (inv : List Inventory),
      (us.map InventoryUpdate.productId).Nodup → ∀ u ∈ us,
      (findInventory inv u.productId).isSome →
      ∃ r, findInventory (phase3 env k us inv).1 u.productId = some r ∧
        r.quantity = u.newQuantity
  | _, [], _, _, u, hu, _ => by cases hu
  | k, u0 :: us, inv, hnd, u, hu, hr => by
    rw [List.map_cons, List.nodup_cons] at hnd
    unfold phase3
    simp only [hw k, Bool.false_eq_true, ↓reduceIte]
    rcases List.mem_cons.mp hu with rfl | hu
    · obtain ⟨r, hr⟩ := Option.isSome_iff_exists.mp hr
      rw [phase3_other env (k + 1) us _ hnd.1,
        findInventory_findOneAndUpdate_same _ _ _ inv r hr]
      exact ⟨_, rfl, rfl⟩
    · have hne : u.productId ≠ u0.productId := by
        intro h
        exact hnd.1 (h ▸ List.mem_map_of_mem _ hu)
      refine phase3_quantity env hw (k + 1) us _ hnd.2 u hu ?_
      rw [findInventory_findOneAndUpdate_other _ _ _ hne]
      exact hr

theorem accepted_productIds {env : Env} {s : Store} {items : List JVal}
    {lus : List (OrderItem × InventoryUpdate)}
    (h : List.Forall₂ (fun item lu => Accepted env s item lu.1 lu.2) items lus) :
    items.map (itemProductId env) = (lus.map Prod.snd).map fun u => some u.productId := by
  induction h with
  | nil => rfl
  | cons ha _ ih =>
    obtain ⟨pid, q, product, inventory, hpid, -, -, -, -, -, -, hu⟩ := ha
    simp only [List.map_cons, ih, hpid, hu]

/-! ### Accepted requests -/

theorem post_of_phase1_ok {env : Env} {s : Store} {req : OrderRequest}
    {items : List JVal} {acc : Staged} (hitems : req.items = .arr items)
    (hne : items ≠ []) (h : phase1 env s items ⟨0, [], []⟩ = .ok acc) :
    orderRouter_post env s req = commit env s req acc := by
  unfold orderRouter_post
  cases items with
  | nil => exact absurd rfl hne
  | cons item rest => simp only [hitems, h]

theorem commit_of_saved {env : Env} {s : Store} {req : OrderRequest} {acc : Staged}
    {order : Order} (hnew : newOrder env req acc = some order)
    (hsave : env.orderSaveFails = false) (hfresh : findOrder s.orders order.id = none)
    (hw : (phase3 env 0 acc.inventoryUpdates s.inventory).2 = true) :
    commit env s req acc =
      (⟨201, .order (some (populate
          ⟨s.products, (phase3 env 0 acc.inventoryUpdates s.inventory).1,
            s.orders ++ [order]⟩ order))⟩,
        ⟨s.products, (phase3 env 0 acc.inventoryUpdates s.inventory).1,
          s.orders ++ [order]⟩) := by
  unfold commit
  simp only [hnew, hsave, hfresh, hw, Option.isSome_none, Bool.or_self,
    Bool.false_eq_true, ↓reduceIte, findOrder_append_new hfresh, Option.map_some']

theorem accepted_of_sufficient {env : Env} {s : Store} :
    ∀ items : List JVal,
      (∀ item ∈ items, ∃ pid q, itemProductId env item = some pid ∧
        itemQuantity item = some q ∧ 1 ≤ q ∧ (s.findProduct pid).isSome ∧
        q ≤ available s pid) →
      ∃ lus : List (OrderItem × InventoryUpdate),
        List.Forall₂ (fun item lu => Accepted env s item lu.1 lu.2) items lus ∧
        ∀ lu ∈ lus, 1 ≤ lu.1.quantity
  | [], _ => ⟨[], List.Forall₂.nil, by simp⟩
  | item :: rest, h => by
    obtain ⟨lus, hall, hq⟩ := accepted_of_sufficient rest
      (fun x hx => h x (List.mem_cons_of_mem _ hx))
    obtain ⟨pid, q, hpid, hqty, hone, hprod, hle⟩ := h item (List.mem_cons_self _ _)
    obtain ⟨product, hprod⟩ := Option.isSome_iff_exists.mp hprod
    have hpos : 0 < q := lt_of_lt_of_le one_pos hone
    cases hinv : findInventory s.inventory pid with
    | none =>
      simp only [available, hinv] at hle
      exact absurd hle (not_le.mpr hpos)
    | some inventory =>
      simp only [available, hinv] at hle
      refine ⟨(⟨pid, q, product.price⟩, ⟨pid, inventory.quantity - q⟩) :: lus,
        List.Forall₂.cons ⟨pid, q, product, inventory, hpid, hqty, hpos, hprod, hinv,
          hle, rfl, rfl⟩ hall, ?_⟩
      intro lu hlu
      rcases List.mem_cons.mp hlu with rfl | hlu
      · exact hone
      · exact hq lu hlu

/-- C5, as stated, fails: the items name the distinct existing products A and
B, of which 5 and 3 are in stock, and ask for 2 of A and for half a unit of
B. The order document is refused by `min: 1` on the quantity of a line item,
and the answer is the 500 of the `catch` block: no order is stored and no
inventory record is written. The same answer is given to 2 of A and 1 of B
when the request carries the customer id "abc", which does not cast. -/
theorem post_distinct_products_half_unit_fails :
    [line idA 2, line idB (1 / 2)].map (itemProductId env0) = [some idA, some idB] ∧
      [line idA 2, line idB (1 / 2)].map itemQuantity = [some 2, some (1 / 2)] ∧
      (store0.findProduct idA).isSome = true ∧ (store0.findProduct idB).isSome = true ∧
      (2 : ℚ) ≤ available store0 idA ∧ (1 / 2 : ℚ) ≤ available store0 idB ∧
      (orderRouter_post env0 store0 (request [line idA 2, line idB (1 / 2)])).1.status =
        500 ∧
      (orderRouter_post env0 store0
        (request [line idA 2, line idB (1 / 2)])).2.orders.length = 0 ∧
      (orderRouter_post env0 store0
        (request [line idA 2, line idB (1 / 2)])).2.inventory.map
          (fun r => (r.product_id, r.quantity)) = [(idA, 5), (idB, 3)] ∧
      (orderRouter_post env0 store0
        { request [line idA 2, line idB 1] with customer_id := .str "abc" }).1.status =
        500 := by
  decide!

/-- C5, amended. A request with a non-empty list of items that name, by
their object ids, pairwise distinct existing products, each asking for a
quantity of at least 1 that the inventory of the product covers, whose optional customer and addresses cast,
in a run where the database takes the new order and refuses no write, is
answered 201 with the new order. The line items are, in input order, the
product id, the requested quantity and the current price of the product; the
total is the sum of the lines; afterwards the available quantity of every
ordered product is the previous one minus the quantity ordered. -/
theorem post_distinct_products_succeeds (env : Env) (s : Store) (req : OrderRequest)
    (items : List JVal) (hitems : req.items = .arr items) (hne : items ≠ [])
    (hgood : ∀ item ∈ items, ∃ pid q, itemProductId env item = some pid ∧
      itemQuantity item = some q ∧ 1 ≤ q ∧ (s.findProduct pid).isSome ∧
      q ≤ available s pid)
    (hdistinct : (items.map (itemProductId env)).Nodup)
    (hcustomer : (castIdPath env req.customer_id).isSome)
    (hshipping : (castStringPath env req.shipping_address).isSome)
    (hbilling : (castStringPath env req.billing_address).isSome)
    (hfresh : findOrder s.orders env.newId = none)
    (hsave : env.orderSaveFails = false)
    (hwrites : ∀ k, env.inventoryWriteFails k = false) :
    ∃ order : Order,
      (orderRouter_post env s req).1 =
        ⟨201, .order (some (populate (orderRouter_post env s req).2 order))⟩ ∧
      (orderRouter_post env s req).2.orders = s.orders ++ [order] ∧
      (orderRouter_post env s req).2.products = s.products ∧
      List.Forall₂ (fun item li => ∃ pid q product, itemProductId env item = some pid ∧
        itemQuantity item = some q ∧ s.findProduct pid = some product ∧
        li = ⟨pid, q, product.price⟩) items order.items ∧
      order.total_amount = lineTotal order.items ∧
      ∀ item ∈ items, ∀ pid q, itemProductId env item = some pid →
        itemQuantity item = some q →
        available (orderRouter_post env s req).2 pid = available s pid - q := by
  obtain ⟨lus, hall, hone⟩ := accepted_of_sufficient items hgood
  have hp := phase1_of_accepted items lus ⟨0, [], []⟩ hall
  simp only [zero_add, List.nil_append] at hp
  obtain ⟨customer_id, hc⟩ := Option.isSome_iff_exists.mp hcustomer
  obtain ⟨shipping_address, hs⟩ := Option.isSome_iff_exists.mp hshipping
  obtain ⟨billing_address, hb⟩ := Option.isSome_iff_exists.mp hbilling
  have hallq : (lus.map Prod.fst).all (fun i => decide (1 ≤ i.quantity)) = true := by
    rw [List.all_eq_true]
    intro li hli
    obtain ⟨lu, hlu, rfl⟩ := List.mem_map.mp hli
    simpa using hone lu hlu
  have hnew : newOrder env req
      ⟨lineTotal (lus.map Prod.fst), lus.map Prod.fst, lus.map Prod.snd⟩ =
      some ⟨env.newId, customer_id, lus.map Prod.fst, lineTotal (lus.map Prod.fst),
        "Pending", shipping_address, billing_address, env.clock 0⟩ := by
    unfold newOrder
    simp only [hc, hs, hb, hallq, ↓reduceIte]
  have hcomplete := phase3_complete env hwrites 0 (lus.map Prod.snd) s.inventory
  rw [post_of_phase1_ok hitems hne hp, commit_of_saved hnew hsave hfresh hcomplete]
  refine ⟨_, rfl, rfl, rfl, ?_, rfl, ?_⟩
  · rw [List.forall₂_map_right_iff]
    refine hall.imp ?_
    rintro item lu ⟨pid, q, product, inventory, hpid, hq, -, hprod, -, -, hli, -⟩
    exact ⟨pid, q, product, hpid, hq, hprod, hli⟩
  · intro item hitem pid q hpid hq
    obtain ⟨lu, hlu, pid', q', product, inventory, hpid', hq', -, -, hinv, -, -, hu⟩ :=
      forall₂_exists_mem_of_mem hall hitem
    rw [hpid] at hpid'
    rw [hq] at hq'
    injection hpid' with hpid'
    injection hq' with hq'
    subst hpid' hq'
    have hnd : ((lus.map Prod.snd).map InventoryUpdate.productId).Nodup := by
      have hmap : (lus.map Prod.snd).map (fun u => some u.productId) =
          ((lus.map Prod.snd).map InventoryUpdate.productId).map some := by
        simp [List.map_map]
      rw [accepted_productIds hall, hmap] at hdistinct
      exact hdistinct.of_map _
    have hpid_eq : lu.2.productId = pid := by rw [hu]
    obtain ⟨r, hr, hrq⟩ := phase3_quantity env hwrites 0 (lus.map Prod.snd) s.inventory hnd
      lu.2 (List.mem_map_of_mem _ hlu) (by rw [hpid_eq, hinv]; rfl)
    rw [hpid_eq] at hr
    simp only [available, hr, hinv, hrq, hu]

theorem post_distinct_products_succeeds_witness :
    ∃ order : Order,
      (orderRouter_post env0 store0 (request [line idA 2, line idB 1])).1 =
        ⟨201, .order (some (populate
          (orderRouter_post env0 store0 (request [line idA 2, line idB 1])).2 order))⟩ ∧
      (orderRouter_post env0 store0 (request [line idA 2, line idB 1])).2.orders =
        store0.orders ++ [order] ∧
      (orderRouter_post env0 store0 (request [line idA 2, line idB 1])).2.products =
        store0.products ∧
      List.Forall₂ (fun item li => ∃ pid q product, itemProductId env0 item = some pid ∧
        itemQuantity item = some q ∧ store0.findProduct pid = some product ∧
        li = ⟨pid, q, product.price⟩) [line idA 2, line idB 1] order.items ∧
      order.total_amount = lineTotal order.items ∧
      ∀ item ∈ [line idA 2, line idB 1], ∀ pid q, itemProductId env0 item = some pid →
        itemQuantity item = some q →
        available (orderRouter_post env0 store0 (request [line idA 2, line idB 1])).2 pid =
          available store0 pid - q :=
  post_distinct_products_succeeds env0 store0 (request [line idA 2, line idB 1])
    [line idA 2, line idB 1] rfl (List.cons_ne_nil _ _)
    (by
      intro item hitem
      rcases List.mem_cons.mp hitem with rfl | hitem
      · exact ⟨idA, 2, by decide, by decide, by decide, by decide, by decide⟩
      · rcases List.mem_cons.mp hitem with rfl | hitem
        · exact ⟨idB, 1, by decide, by decide, by decide, by decide, by decide⟩
        · cases hitem)
    (by decide) (by decide) (by decide) (by decide) rfl rfl (fun _ => rfl)

/-- The example of the specification, evaluated: 2 of A at 10.00 and 1 of B
at 5.00 give a total of 25.00, two line items with these snapshots, and the
inventory of A goes from 5 to 3, that of B from 3 to 2. -/
theorem post_round_trip_example :
    (orderRouter_post env0 store0 (request [line idA 2, line idB 1])).1.status = 201 ∧
      (orderRouter_post env0 store0 (request [line idA 2, line idB 1])).2.orders.map
          (fun o => (o.total_amount, o.status,
            o.items.map fun i => (i.product_id, i.quantity, i.price_per_unit))) =
        [(25, "Pending", [(idA, 2, 10), (idB, 1, 5)])] ∧
      (orderRouter_post env0 store0 (request [line idA 2, line idB 1])).2.inventory.map
          (fun r => (r.product_id, r.quantity)) = [(idA, 3), (idB, 2)] := by
  decide!

/-! ### Status update -/

theorem saveStatus_of_find (id : ObjectId) (t : String) :
    ∀ (orders : List Order) (order : Order), findOrder orders id = some order →
      ∃ pre rest, orders = pre ++ order :: rest ∧ (∀ o ∈ pre, o.id ≠ id) ∧
        order.id = id ∧
        saveStatus id t orders = pre ++ { order with status := t } :: rest
  | [], order, h => by simp [findOrder] at h
  | o :: os, order, h => by
    unfold findOrder at h
    rw [List.find?_cons] at h
    split at h
    · next hid =>
      injection h with h
      subst h
      have hid' : o.id = id := by simpa using hid
      exact ⟨[], os, rfl, by simp, hid', by simp [saveStatus, hid']⟩
    · next hid =>
      have hid' : o.id ≠ id := by simpa using hid
      obtain ⟨pre, rest, hos, hpre, hoid, hsave⟩ := saveStatus_of_find id t os order h
      refine ⟨o :: pre, rest, by simp [hos], ?_, hoid, ?_⟩
      · intro x hx
        rcases List.mem_cons.mp hx with rfl | hx
        · exact hid'
        · exact hpre x hx
      · simp [saveStatus, hid', hsave]


/-- C6. A request whose `items` is an empty list, is missing, or is not a
list is answered 400 "items required" whatever the store and the environment
are, and the store is returned as it was. -/
theorem post_rejects_empty_items (env : Env) (s : Store) (req : OrderRequest)
    (h : req.items = .arr [] ∨ ∀ xs, req.items ≠ .arr xs) :
    orderRouter_post env s req = (⟨400, .message .itemsRequired⟩, s) := by
  unfold orderRouter_post
  split
  · next item rest heq =>
    rcases h with h | h
    · rw [heq] at h; cases h
    · exact absurd heq (h _)
  · rfl

theorem post_rejects_empty_items_witness :
    orderRouter_post env0 store0 (request []) =
      (⟨400, .message .itemsRequired⟩, store0) :=
  post_rejects_empty_items env0 store0 (request []) (Or.inl rfl)

/-- C7. A status update answered 200 rewrites the `status` of the addressed
order, the first one with the requested id, and nothing else: the order
keeps every other field, the orders before and after it, the inventory and
the products are the same, whatever the new status is (`Cancelled` included:
nothing is restocked). -/
theorem put_status_changes_status_only (env : Env) (s : Store) (orderId : String)
    (status : JVal) (h : (orderRouter_put_status env s orderId status).1.status = 200) :
    ∃ pre order rest newStatus, status = .str newStatus ∧
      newStatus ∈ validStatuses ∧
      env.castObjectId (.str orderId) = some order.id ∧
      s.orders = pre ++ order :: rest ∧ (∀ o ∈ pre, o.id ≠ order.id) ∧
      (orderRouter_put_status env s orderId status).2 =
        { s with orders := pre ++ { order with status := newStatus } :: rest } := by
  unfold orderRouter_put_status at h ⊢
  split at h
  · simp at h
  · next hvalid =>
    split at h
    · next newStatus id hcast =>
      split at h
      · simp at h
      · next order hfind =>
        split at h
        · simp at h
        · next hsave =>
          obtain ⟨pre, rest, horders, hpre, hid, hsaved⟩ :=
            saveStatus_of_find id newStatus s.orders order hfind
          refine ⟨pre, order, rest, newStatus, rfl, ?_, ?_, horders, ?_, ?_⟩
          · simp only [Bool.or_eq_true, Bool.not_eq_true', not_or, Bool.not_eq_false,
              JVal.includedIn] at hvalid
            simpa using hvalid.2
          · rw [hid]; exact hcast
          · rw [hid]; exact hpre
          · simp only [hvalid, hfind, hsave, hid, hsaved]
            simp
    · simp at h

theorem put_status_changes_status_only_witness :
    ∃ pre order rest newStatus, JVal.str "Cancelled" = .str newStatus ∧
      newStatus ∈ validStatuses ∧
      env0.castObjectId (.str "0123456789abcdef01234567") = some order.id ∧
      store1.orders = pre ++ order :: rest ∧ (∀ o ∈ pre, o.id ≠ order.id) ∧
      (orderRouter_put_status env0 store1 "0123456789abcdef01234567"
          (.str "Cancelled")).2 =
        { store1 with orders := pre ++ { order with status := newStatus } :: rest } :=
  put_status_changes_status_only env0 store1 "0123456789abcdef01234567"
    (.str "Cancelled") (by decide)

/-- C8. A status that is not one of the five enumerated strings (missing,
empty, of another type, or another string) is answered 400 and the store is
returned as it was. -/
theorem put_status_rejects_unknown (env : Env) (s : Store) (orderId : String)
    (status : JVal) (h : ∀ t ∈ validStatuses, status ≠ .str t) :
    orderRouter_put_status env s orderId status =
      (⟨400, .message .invalidStatus⟩, s) := by
  unfold orderRouter_put_status
  have hinc : status.includedIn validStatuses = false := by
    cases status <;> simp [JVal.includedIn]
    next t => intro ht; exact h t ht rfl
  simp [hinc]

theorem put_status_rejects_unknown_witness :
    orderRouter_put_status env0 store0 "0123456789abcdef01234567" (.str "Delivered!!") =
      (⟨400, .message .invalidStatus⟩, store0) :=
  put_status_rejects_unknown env0 store0 _ _ (by simp [validStatuses])

/-! ### What the server validates -/

theorem commit_shipping_address (env : Env) (s : Store) (req : OrderRequest)
    (acc : Staged) (v w : JVal) (hv : (castStringPath env v).isSome)
    (hw : (castStringPath env w).isSome) :
    (commit env s { req with shipping_address := v } acc).1.status =
        (commit env s { req with shipping_address := w } acc).1.status ∧
      (commit env s { req with shipping_address := v } acc).2.inventory =
        (commit env s { req with shipping_address := w } acc).2.inventory := by
  obtain ⟨sv, hv⟩ := Option.isSome_iff_exists.mp hv
  obtain ⟨sw, hw⟩ := Option.isSome_iff_exists.mp hw
  unfold commit newOrder
  simp only [hv, hw]
  cases castIdPath env req.customer_id with
  | none => exact ⟨rfl, rfl⟩
  | some c =>
    cases castStringPath env req.billing_address with
    | none => exact ⟨rfl, rfl⟩
    | some b =>
      by_cases hall : (acc.orderItemsData.all fun i => decide (1 ≤ i.quantity)) = true
      · simp only [hall, if_true]
        by_cases hs : (env.orderSaveFails || (findOrder s.orders env.newId).isSome) = true
        · simp [hs]
        · simp only [hs, if_false]
          by_cases hp : (phase3 env 0 acc.inventoryUpdates s.inventory).2 = true
          · simp [hp]
          · simp [hp]
      · simp [hall]

/-- C9, as stated, fails: a request for 1 of product A without
`shipping_address`, and the same request with the empty string as
`shipping_address`, are both answered 201, and the order is stored without,
respectively with the empty, shipping address. -/
theorem post_accepts_missing_shipping_address :
    (orderRouter_post env0 store0
        { request [line idA 1] with shipping_address := .undefined }).1.status = 201 ∧
      (orderRouter_post env0 store0
        { request [line idA 1] with shipping_address := .undefined }).2.orders.map
          (fun o => o.shipping_address) = [none] ∧
      (orderRouter_post env0 store0
        { request [line idA 1] with shipping_address := .str "" }).1.status = 201 ∧
      (orderRouter_post env0 store0
        { request [line idA 1] with shipping_address := .str "" }).2.orders.map
          (fun o => o.shipping_address) = [some ""] := by
  decide

/-- C9, amended. The empty shipping address is rejected by the client form:
`handleSubmitOrder` sets an error and posts nothing when the shipping address
is empty once trimmed. The server makes no such check: with a
`shipping_address` that is missing, `null` or the empty string, a request
gets the response status, and leaves the inventory, that it gets with any
other string as `shipping_address`. -/
theorem shipping_address_checked_by_client (orderItems : List FormItem)
    (formData : FormData) (env : Env) (s : Store) (req : OrderRequest) (v : JVal)
    (a : String) (hempty : trim formData.shipping_address = "")
    (hv : v = .undefined ∨ v = .null ∨ v = .str "") :
    (∃ msg, handleSubmitOrder orderItems formData = .error msg) ∧
      (orderRouter_post env s { req with shipping_address := v }).1.status =
        (orderRouter_post env s { req with shipping_address := .str a }).1.status ∧
      (orderRouter_post env s { req with shipping_address := v }).2.inventory =
        (orderRouter_post env s { req with shipping_address := .str a }).2.inventory := by
  constructor
  · by_cases hlen : orderItems.length = 0
    · refine ⟨"Please add at least one product to the order.", ?_⟩
      simp only [handleSubmitOrder, hlen, if_true]
    · refine ⟨"Shipping address is required.", ?_⟩
      simp only [handleSubmitOrder, hlen, hempty, if_true, if_false]
  · have hsome : (castStringPath env v).isSome := by
      rcases hv with rfl | rfl | rfl <;> rfl
    unfold orderRouter_post
    dsimp only
    split
    · split
      · exact ⟨rfl, rfl⟩
      · exact commit_shipping_address env s req _ v (.str a) hsome rfl
    · exact ⟨rfl, rfl⟩

theorem shipping_address_checked_by_client_witness :
    (∃ msg, handleSubmitOrder [⟨idA, "A", 10, some 1⟩] ⟨"", " \n", ""⟩ = .error msg) ∧
      (orderRouter_post env0 store0
          { request [line idA 1] with shipping_address := .undefined }).1.status =
        (orderRouter_post env0 store0
          { request [line idA 1] with shipping_address := .str "12 Main St" }).1.status ∧
      (orderRouter_post env0 store0
          { request [line idA 1] with shipping_address := .undefined }).2.inventory =
        (orderRouter_post env0 store0
          { request [line idA 1] with shipping_address := .str "12 Main St" }).2.inventory :=
  shipping_address_checked_by_client [⟨idA, "A", 10, some 1⟩] ⟨"", " \n", ""⟩ env0 store0
    (request [line idA 1]) .undefined "12 Main St" (by decide) (Or.inl rfl)

/-- C10, as stated, fails: the quantity 3/2 is not an integer, yet a request
for 3/2 of product A is answered 201 and stored with that quantity; a request
for 1/2 of product A is not answered with a validation error but with the
500 of the `catch` block, the order document being refused by `min: 1`. -/
theorem post_accepts_fractional_quantity :
    Rat.isInt (3 / 2) = false ∧
      (orderRouter_post env0 store0 (request [line idA (3 / 2)])).1.status = 201 ∧
      (orderRouter_post env0 store0 (request [line idA (3 / 2)])).2.orders.map
          (fun o => o.items.map fun i => i.quantity) = [[3 / 2]] ∧
      Rat.isInt (1 / 2) = false ∧
      (orderRouter_post env0 store0 (request [line idA (1 / 2)])).1.status = 500 := by
  decide!

/-- C10, amended. An item the loop reaches (every earlier item is accepted)
whose product id is absent or falsy, or whose quantity is missing, not a
number, or a number that is 0 or negative, is answered with a validation
error, status 400, and the store is left as it was. -/
theorem post_rejects_malformed_item (env : Env) (s : Store) (req : OrderRequest)
    (pre rest : List JVal) (item : JVal) (acc : Staged) (v qv : JVal)
    (hitems : req.items = .arr (pre ++ item :: rest))
    (hpre : phase1 env s pre ⟨0, [], []⟩ = .ok acc)
    (hv : item.field "product_id" = some v) (hqv : item.field "quantity" = some qv)
    (hbad : v.truthy = false ∨ ∀ q, qv = .num q → q ≤ 0) :
    ((orderRouter_post env s req).1 = ⟨400, .message .missingProductIdOrQuantity⟩ ∨
        (orderRouter_post env s req).1 = ⟨400, .message (.quantityNotPositive v)⟩) ∧
      (orderRouter_post env s req).2 = s := by
  have hcheck : checkItem env s acc item =
        .error ⟨400, .message .missingProductIdOrQuantity⟩ ∨
      checkItem env s acc item = .error ⟨400, .message (.quantityNotPositive v)⟩ := by
    unfold checkItem
    simp only [hv, hqv]
    split
    · left; rfl
    · next hck =>
      simp only [Bool.or_eq_true, Bool.not_eq_true', not_or, Bool.not_eq_false] at hck
      have hbad' : ∀ q, qv = .num q → q ≤ 0 := by
        rcases hbad with h | h
        · rw [hck.1] at h; cases h
        · exact h
      split
      · next q =>
        right
        rw [if_pos (hbad' q rfl)]
      · right; rfl
  have hphase : ∀ r, checkItem env s acc item = .error r →
      phase1 env s (pre ++ item :: rest) ⟨0, [], []⟩ = .error r := by
    intro r hr
    rw [phase1_append _ _ _ _ hpre]
    simp only [phase1, hr]
  rcases hcheck with h | h
  · rw [post_of_phase1_error hitems (hphase _ h)]
    exact ⟨Or.inl rfl, rfl⟩
  · rw [post_of_phase1_error hitems (hphase _ h)]
    exact ⟨Or.inr rfl, rfl⟩

theorem post_rejects_malformed_item_witness :
    ((orderRouter_post env0 store0 (request [line idB 1, line idA 0])).1 =
          ⟨400, .message .missingProductIdOrQuantity⟩ ∨
        (orderRouter_post env0 store0 (request [line idB 1, line idA 0])).1 =
          ⟨400, .message (.quantityNotPositive (.str idA))⟩) ∧
      (orderRouter_post env0 store0 (request [line idB 1, line idA 0])).2 = store0 :=
  post_rejects_malformed_item env0 store0 (request [line idB 1, line idA 0])
    [line idB 1] [] (line idA 0) _ (.str idA) (.num 0) rfl rfl rfl rfl
    (Or.inr (by intro q hq; injection hq with hq; rw [← hq]))

/-! ### The first failing item decides the response -/

theorem checkItem_malformed {env : Env} {s : Store} {item v qv : JVal}
    (hv : item.field "product_id" = some v) (hqv : item.field "quantity" = some qv)
    (hbad : v.truthy = false ∨ ∀ q, qv = .num q → q ≤ 0) (acc : Staged) :
    checkItem env s acc item = .error ⟨400, .message .missingProductIdOrQuantity⟩ ∨
      checkItem env s acc item = .error ⟨400, .message (.quantityNotPositive v)⟩ := by
  unfold checkItem
  simp only [hv, hqv]
  split
  · left; rfl
  · next hck =>
    simp only [Bool.or_eq_true, Bool.not_eq_true', not_or, Bool.not_eq_false] at hck
    have hbad' : ∀ q, qv = .num q → q ≤ 0 := by
      rcases hbad with h | h
      · rw [hck.1] at h; cases h
      · exact h
    split
    · next q =>
      right
      rw [if_pos (hbad' q rfl)]
    · right; rfl

theorem phase1_error_append {env : Env} {s : Store} {r : Response} (rest : List JVal) :
    ∀ (pre : List JVal) (acc : Staged), phase1 env s pre acc = .error r →
      phase1 env s (pre ++ rest) acc = .error r
  | [], acc, h => by simp [phase1] at h
  | item :: pre, acc, h => by
    rw [List.cons_append]
    cases h1 : checkItem env s acc item with
    | error r' =>
      simp only [phase1, h1] at h ⊢
      exact h
    | ok acc1 =>
      simp only [phase1, h1] at h ⊢
      exact phase1_error_append rest pre _ h

theorem phase1_first_failure {env : Env} {s : Store} {pre : List JVal}
    (rest : List JVal) {item : JVal} {acc acc' : Staged} {r : Response}
    (hpre : phase1 env s pre acc = .ok acc')
    (hitem : checkItem env s acc' item = .error r) :
    phase1 env s (pre ++ item :: rest) acc = .error r := by
  rw [phase1_append _ _ _ _ hpre]
  simp only [phase1, hitem]

/-- C11, as stated, fails: validation is not a pass of its own. With a first
item that names a product that does not exist and a second item without
product id, the response is the 404 of the first item; with a first item that
asks for 6 of product A, of which 5 are in stock, and a second item of
quantity 0, the response is the insufficient-stock error of the first
item. -/
theorem post_malformed_item_answered_not_found :
    (orderRouter_post env0 store0
        (request [line "cccccccccccccccccccccccc" 1, .obj [("quantity", .num 1)]])).1 =
      ⟨404, .message (.productNotFound (.str "cccccccccccccccccccccccc"))⟩ ∧
    (orderRouter_post env0 store0 (request [line idA 6, line idB 0])).1 =
      ⟨400, .message (.insufficientStock "A" 6 5)⟩ := by
  constructor <;> rfl

/-- C11, amended. Each item is validated and then processed before the next
item is looked at, and the response is that of the first item that fails. A
malformed item (product id absent or falsy, quantity missing, not a number or
not positive) at any position makes the placement fail without any write;
the failure is the validation error of that item when every earlier item is
accepted, and the error of the earlier item when an earlier item fails. -/
theorem post_malformed_item_anywhere (env : Env) (s : Store) (req : OrderRequest)
    (pre rest : List JVal) (item v qv : JVal)
    (hitems : req.items = .arr (pre ++ item :: rest))
    (hv : item.field "product_id" = some v) (hqv : item.field "quantity" = some qv)
    (hbad : v.truthy = false ∨ ∀ q, qv = .num q → q ≤ 0) :
    (orderRouter_post env s req).1.status ≠ 201 ∧
      (orderRouter_post env s req).2 = s ∧
      (∀ acc, phase1 env s pre ⟨0, [], []⟩ = .ok acc →
        (orderRouter_post env s req).1 = ⟨400, .message .missingProductIdOrQuantity⟩ ∨
        (orderRouter_post env s req).1 = ⟨400, .message (.quantityNotPositive v)⟩) ∧
      ∀ r, phase1 env s pre ⟨0, [], []⟩ = .error r → (orderRouter_post env s req).1 = r := by
  have hfail : ∃ r, phase1 env s (pre ++ item :: rest) ⟨0, [], []⟩ = .error r := by
    cases hpre : phase1 env s pre ⟨0, [], []⟩ with
    | error r => exact ⟨r, phase1_error_append _ _ _ hpre⟩
    | ok acc =>
      rcases checkItem_malformed hv hqv hbad acc with h | h
      · exact ⟨_, phase1_first_failure rest hpre h⟩
      · exact ⟨_, phase1_first_failure rest hpre h⟩
  obtain ⟨r, hr⟩ := hfail
  rw [post_of_phase1_error hitems hr]
  refine ⟨?_, rfl, ?_, ?_⟩
  · rcases phase1_error_status _ _ hr with h | h | h <;> simp [h]
  · intro acc hpre
    rcases checkItem_malformed hv hqv hbad acc with h | h
    · left
      have := phase1_first_failure rest hpre h
      rw [hr] at this
      injection this
    · right
      have := phase1_first_failure rest hpre h
      rw [hr] at this
      injection this
  · intro r' hpre
    have := phase1_error_append (item :: rest) _ _ hpre
    rw [hr] at this
    injection this

theorem post_malformed_item_anywhere_witness :
    (orderRouter_post env0 store0
        (request [line "cccccccccccccccccccccccc" 1, line idA 0])).1.status ≠ 201 ∧
      (orderRouter_post env0 store0
        (request [line "cccccccccccccccccccccccc" 1, line idA 0])).2 = store0 ∧
      (orderRouter_post env0 store0
        (request [line "cccccccccccccccccccccccc" 1, line idA 0])).1 =
        ⟨404, .message (.productNotFound (.str "cccccccccccccccccccccccc"))⟩ :=
  have h := post_malformed_item_anywhere env0 store0
    (request [line "cccccccccccccccccccccccc" 1, line idA 0])
    [line "cccccccccccccccccccccccc" 1] [] (line idA 0) (.str idA) (.num 0) rfl rfl rfl
    (Or.inr (by intro q hq; injection hq with hq; rw [← hq]))
  ⟨h.1, h.2.1, h.2.2.2 _ rfl⟩


/-! ### Products that cannot be resolved -/

theorem checkItem_product_not_found {env : Env} {s : Store} {item v : JVal} {q : ℚ}
    {pid : ObjectId} (hv : item.field "product_id" = some v) (htr : v.truthy = true)
    (hq : item.field "quantity" = some (.num q)) (hpos : 0 < q)
    (hcast : env.castObjectId v = some pid) (hprod : s.findProduct pid = none)
    (acc : Staged) :
    checkItem env s acc item = .error ⟨404, .message (.productNotFound v)⟩ := by
  have hprod' : s.products.find? (fun p => p.id == pid) = none := hprod
  unfold checkItem
  simp [hv, hq, htr, JVal.isUndefined, idCondition, hcast, not_le.mpr hpos]
  rw [hprod']

theorem checkItem_cast_error {env : Env} {s : Store} {item v : JVal} {q : ℚ}
    (hv : item.field "product_id" = some v) (htr : v.truthy = true)
    (hq : item.field "quantity" = some (.num q)) (hpos : 0 < q)
    (hcast : idCondition env v = none) (acc : Staged) :
    checkItem env s acc item = .error failedToCreate := by
  unfold checkItem
  simp [hv, hq, htr, JVal.isUndefined, hcast, not_le.mpr hpos]

/-- When every earlier item is accepted and item `k` is well-formed with a
product id that casts to the id of no product, the response is 404 "product
not found" naming the product id as sent, and the store is left as it was. -/
theorem post_unknown_product_not_found (env : Env) (s : Store) (req : OrderRequest)
    (pre rest : List JVal) (item v : JVal) (q : ℚ) (pid : ObjectId) (acc : Staged)
    (hitems : req.items = .arr (pre ++ item :: rest))
    (hpre : phase1 env s pre ⟨0, [], []⟩ = .ok acc)
    (hv : item.field "product_id" = some v) (htr : v.truthy = true)
    (hq : item.field "quantity" = some (.num q)) (hpos : 0 < q)
    (hcast : env.castObjectId v = some pid) (hprod : s.findProduct pid = none) :
    orderRouter_post env s req = (⟨404, .message (.productNotFound v)⟩, s) :=
  post_of_phase1_error hitems
    (phase1_first_failure rest hpre (checkItem_product_not_found hv htr hq hpos hcast hprod acc))

/-- When every earlier item is accepted and item `k` is well-formed with a
product id that casts neither to an `ObjectId` nor to a query condition,
`Product.findById` throws and the response is the 500 of the `catch` block. -/
theorem post_uncastable_product_id (env : Env) (s : Store) (req : OrderRequest)
    (pre rest : List JVal) (item v : JVal) (q : ℚ) (acc : Staged)
    (hitems : req.items = .arr (pre ++ item :: rest))
    (hpre : phase1 env s pre ⟨0, [], []⟩ = .ok acc)
    (hv : item.field "product_id" = some v) (htr : v.truthy = true)
    (hq : item.field "quantity" = some (.num q)) (hpos : 0 < q)
    (hcast : idCondition env v = none) :
    orderRouter_post env s req = (failedToCreate, s) :=
  post_of_phase1_error hitems
    (phase1_first_failure rest hpre (checkItem_cast_error hv htr hq hpos hcast acc))

/-- C12. The claim asks for a 404 naming the product id whenever the product
id of a well-formed item resolves to no product. The code does so for an id
that is a valid `ObjectId` of no product, but for the id "abc", which is the
id of no product either, `Product.findById` throws a cast error that the
`catch` block of the order handler answers with 500 "Failed to create
order"; the status handler of the same router answers 404 to the order id
"abc". -/
theorem post_product_id_abc_answered_500 :
    (store0.products.all fun p => p.id != "abc") = true ∧
      (orderRouter_post env0 store0 (request [line "abc" 1])).1.status = 500 ∧
      (orderRouter_post env0 store0 (request [line "abc" 1])).1.body =
        .message .failedToCreateOrder ∧
      (orderRouter_post env0 store0 (request [line "cccccccccccccccccccccccc" 1])).1 =
        ⟨404, .message (.productNotFound (.str "cccccccccccccccccccccccc"))⟩ ∧
      (orderRouter_put_status env0 store1 "abc" (.str "Shipped")).1.status = 404 := by
  refine ⟨by decide, by decide, rfl, rfl, by decide⟩

/-! ### The insufficient-stock report -/

theorem phase1_error_of_not_taken {env : Env} {s : Store} {items : List JVal}
    {item : JVal} (hmem : item ∈ items) (h : ∀ li u, ¬ Taken env s item li u)
    (acc : Staged) : ∃ r, phase1 env s items acc = .error r := by
  cases hp : phase1 env s items acc with
  | error r => exact ⟨r, rfl⟩
  | ok acc' =>
    obtain ⟨lus, hall, -⟩ := phase1_ok _ _ _ hp
    obtain ⟨lu, -, hlu⟩ := forall₂_exists_mem_of_mem hall hmem
    exact absurd hlu (h _ _)

/-- The insufficient-stock report for an item that names its product by an
object id. When item `k` names a product `pid`, every earlier item is taken,
and the item asks for a positive quantity `q` of the existing product: with
an inventory record holding less than `q` the response is the
insufficient-stock error reporting the product name, `q` and the quantity of
the record; without an inventory record it is the same error reporting 0 as
available. In both cases nothing is written. A request with an item that
names by its object id a product without an inventory record, at any position
and for any quantity, is never answered 201. -/
theorem post_insufficient_stock_report (env : Env) (s : Store) (req : OrderRequest)
    (pre rest : List JVal) (item : JVal) (pid : ObjectId)
    (hitems : req.items = .arr (pre ++ item :: rest))
    (hpid : itemProductId env item = some pid) :
    (∀ acc q product, phase1 env s pre ⟨0, [], []⟩ = .ok acc →
        itemQuantity item = some q → 0 < q → s.findProduct pid = some product →
        (∀ r, findInventory s.inventory pid = some r → r.quantity < q →
          orderRouter_post env s req =
            (⟨400, .message (.insufficientStock product.name q r.quantity)⟩, s)) ∧
        (findInventory s.inventory pid = none →
          orderRouter_post env s req =
            (⟨400, .message (.insufficientStock product.name q 0)⟩, s))) ∧
      (findInventory s.inventory pid = none →
        (orderRouter_post env s req).1.status ≠ 201 ∧
          (orderRouter_post env s req).2 = s) := by
  constructor
  · intro acc q product hpre hq hpos hprod
    constructor
    · intro r hr hlt
      have hav : available s pid = r.quantity := by simp only [available, hr]
      have h := checkItem_insufficient hpid hq hpos hprod (by rw [hav]; exact hlt) acc
      rw [hav] at h
      exact post_of_phase1_error hitems (phase1_first_failure rest hpre h)
    · intro hnone
      have hav : available s pid = 0 := by simp only [available, hnone]
      have h := checkItem_insufficient hpid hq hpos hprod (by rw [hav]; exact hpos) acc
      rw [hav] at h
      exact post_of_phase1_error hitems (phase1_first_failure rest hpre h)
  · intro hnone
    have hmem : item ∈ pre ++ item :: rest :=
      List.mem_append_right _ (List.mem_cons_self _ _)
    have hna : ∀ li u, ¬ Taken env s item li u := by
      intro li u htaken
      obtain ⟨pid', q, product, inventory, hpid', -, -, -, hinv, -⟩ :=
        accepted_of_taken htaken hpid
      rw [hpid] at hpid'
      injection hpid' with hpid'
      subst hpid'
      rw [hnone] at hinv
      cases hinv
    obtain ⟨r, hr⟩ := phase1_error_of_not_taken hmem hna (⟨0, [], []⟩ : Staged)
    rw [post_of_phase1_error hitems hr]
    refine ⟨?_, rfl⟩
    rcases phase1_error_status _ _ hr with h | h | h <;> simp [h]

theorem post_insufficient_stock_report_witness :
    orderRouter_post env0 store2 (request [line idB 1, line idC 1]) =
        (⟨400, .message (.insufficientStock "C" 1 0)⟩, store2) ∧
      (orderRouter_post env0 store2 (request [line idB 1, line idC 1])).1.status ≠ 201 ∧
      (orderRouter_post env0 store2 (request [line idB 1, line idC 1])).2 = store2 :=
  have h := post_insufficient_stock_report env0 store2 (request [line idB 1, line idC 1])
    [line idB 1] [] (line idC 1) idC rfl (by decide)
  ⟨(h.1 _ 1 _ rfl (by decide) (by decide) rfl).2 rfl, h.2 rfl⟩

/-- C13. The claim asks that a product with no inventory record can never be
ordered. Product C, the first product of `store5`, has none, and an item that
names C by its object id is answered 400 "insufficient stock" with 0
available. An item whose `product_id` is the query operator `{ "$ne": null }`
is handed to `Product.findById`, which returns C, and to `Inventory.findOne`,
which returns the record of product A: the check compares the quantity asked
for with the 5 units of A, the placement is answered 201, an order for 1 unit
of C at 7.00 is stored, and no inventory record is written. -/
theorem post_operator_product_id_orders_without_record :
    (findInventory store5.inventory idC).isNone = true ∧
      (orderRouter_post env0 store5 (request [line idC 1])).1 =
        ⟨400, .message (.insufficientStock "C" 1 0)⟩ ∧
      (orderRouter_post env0 store5 (request [operatorLine 1])).1.status = 201 ∧
      (orderRouter_post env0 store5 (request [operatorLine 1])).2.orders.map
        (fun o => o.items.map fun i => (i.product_id, i.quantity, i.price_per_unit)) =
        [[(idC, 1, 7)]] ∧
      (orderRouter_post env0 store5 (request [operatorLine 1])).2.inventory.map
        (fun r => (r.product_id, r.quantity)) = [(idA, 5), (idB, 3)] := by
  refine ⟨by decide, rfl, by decide, by decide!, by decide!⟩

/-! ### The stored order -/

theorem orderRequestOf_status (status : JVal) (fields : List (String × JVal)) :
    orderRequestOf (.obj (("status", status) :: fields)) = orderRequestOf (.obj fields) := by
  simp [orderRequestOf, bodyField, JVal.field, List.lookup]

/-- C14. A placement answered 201 appends exactly one order to the ledger,
and that order has status `Pending`. The handler reads `customer_id`,
`items`, `shipping_address` and `billing_address` of the body and nothing
else: with a `status` of any value added to the body, the response and the
store are the same. -/
theorem post_appends_one_pending_order (env : Env) (s : Store) (status : JVal)
    (fields : List (String × JVal))
    (h : (orderRouter_post env s
      (orderRequestOf (.obj (("status", status) :: fields)))).1.status = 201) :
    orderRouter_post env s (orderRequestOf (.obj (("status", status) :: fields))) =
        orderRouter_post env s (orderRequestOf (.obj fields)) ∧
      ∃ order : Order,
        (orderRouter_post env s
          (orderRequestOf (.obj (("status", status) :: fields)))).2.orders =
            s.orders ++ [order] ∧
        order.status = "Pending" := by
  refine ⟨by rw [orderRequestOf_status], ?_⟩
  unfold orderRouter_post at h ⊢
  split at h
  · next item rest hitems =>
    split at h
    · next r hr =>
      rcases phase1_error_status _ _ hr with h' | h' | h' <;> simp_all
    · next acc hacc =>
      obtain ⟨order, inv, hnew, -, -, -, hc⟩ := commit_created h
      obtain ⟨-, -, -, hstatus, -⟩ := newOrder_some hnew
      refine ⟨order, ?_, hstatus⟩
      simp only [hitems, hacc, hc]
  · simp at h

theorem post_appends_one_pending_order_witness :
    orderRouter_post env0 store0
        (orderRequestOf (.obj [("status", .str "Shipped"),
          ("items", .arr [line idA 2]), ("shipping_address", .str "12 Main St")])) =
        orderRouter_post env0 store0
          (orderRequestOf (.obj [("items", .arr [line idA 2]),
            ("shipping_address", .str "12 Main St")])) ∧
      ∃ order : Order,
        (orderRouter_post env0 store0
          (orderRequestOf (.obj [("status", .str "Shipped"),
            ("items", .arr [line idA 2]),
            ("shipping_address", .str "12 Main St")]))).2.orders =
            store0.orders ++ [order] ∧
        order.status = "Pending" :=
  post_appends_one_pending_order env0 store0 (.str "Shipped")
    [("items", .arr [line idA 2]), ("shipping_address", .str "12 Main St")] (by decide)


/-! ### Product updates and stored orders -/

/-- C15. A product update, whatever the product and the update document are
and whatever the response is, leaves the order collection as it was: the
`price_per_unit` of every stored line item and the `total_amount` of every
stored order are those written when the order was placed. This holds in
particular in the store a placement leaves. The inventory is left as it was
too. -/
theorem product_update_keeps_orders (env env' : Env) (s : Store) (req : OrderRequest)
    (id : String) (body : JVal) :
    (productRouter_put env s id body).2.orders = s.orders ∧
      (productRouter_put env s id body).2.inventory = s.inventory ∧
      (productRouter_put env (orderRouter_post env' s req).2 id body).2.orders =
        (orderRouter_post env' s req).2.orders := by
  have key : ∀ t : Store, (productRouter_put env t id body).2.orders = t.orders ∧
      (productRouter_put env t id body).2.inventory = t.inventory := by
    intro t
    unfold productRouter_put
    split
    · exact ⟨rfl, rfl⟩
    · split
      · exact ⟨rfl, rfl⟩
      · split
        · exact ⟨rfl, rfl⟩
        · exact ⟨rfl, rfl⟩
  exact ⟨(key s).1, (key s).2, (key _).1⟩

/-- The price of product A is raised from 10 to 12 after the order of
`store1` was placed: the product now costs 12, the stored line item still
says 10 and the stored total 25. -/
theorem price_snapshot_example :
    (productRouter_put env0 store1 idA (.obj [("price", .num 12)])).1.status = 200 ∧
      (productRouter_put env0 store1 idA (.obj [("price", .num 12)])).2.products.map
          (fun p => (p.id, p.price)) = [(idA, 12), (idB, 5)] ∧
      (productRouter_put env0 store1 idA (.obj [("price", .num 12)])).2.orders.map
          (fun o => (o.total_amount, o.items.map fun i => (i.product_id, i.price_per_unit))) =
        [(25, [(idA, 10), (idB, 5)])] := by
  decide!

/-! ### Status transitions -/

theorem findOrder_saveStatus (id : ObjectId) (t : String) :
    ∀ (orders : List Order) (order : Order), findOrder orders id = some order →
      findOrder (saveStatus id t orders) id = some { order with status := t }
  | [], order, h => by simp [findOrder] at h
  | o :: os, order, h => by
    unfold findOrder at h ⊢
    unfold saveStatus
    rw [List.find?_cons] at h
    split at h
    · next hid =>
      injection h with h
      subst h
      simp [hid]
    · next hid =>
      simp only [hid, Bool.false_eq_true, ↓reduceIte, List.find?_cons]
      exact findOrder_saveStatus id t os order h

theorem findOrder_id {orders : List Order} {id : ObjectId} {order : Order}
    (h : findOrder orders id = some order) : order.id = id := by
  have := List.find?_some h
  simpa using this

/-- C16. For an order that exists, whatever its current status, and a target
status among the five, the current one included, the update is answered 200
when `order.save()` goes through, and the stored status of the order is then
the target status. -/
theorem put_status_any_transition (env : Env) (s : Store) (orderId : String)
    (t : String) (id : ObjectId) (order : Order) (ht : t ∈ validStatuses)
    (hcast : env.castObjectId (.str orderId) = some id)
    (hfind : findOrder s.orders id = some order) (hsave : env.orderSaveFails = false) :
    (orderRouter_put_status env s orderId (.str t)).1.status = 200 ∧
      findOrder (orderRouter_put_status env s orderId (.str t)).2.orders id =
        some { order with status := t } := by
  have hvalid : (!(JVal.str t).truthy || !(JVal.str t).includedIn validStatuses) = false := by
    have hne : t ≠ "" := by
      rintro rfl
      simp [validStatuses] at ht
    simp [JVal.truthy, JVal.includedIn, hne, ht]
  unfold orderRouter_put_status
  simp only [hvalid, hcast, hfind, hsave, Bool.false_eq_true, ↓reduceIte, findOrder_id hfind]
  have h := findOrder_saveStatus id t s.orders order hfind
  simp only [findOrder_id hfind] at h
  exact ⟨trivial, h⟩

theorem put_status_any_transition_witness :
    (orderRouter_put_status env0 store1 "0123456789abcdef01234567"
        (.str "Pending")).1.status = 200 ∧
      findOrder (orderRouter_put_status env0 store1 "0123456789abcdef01234567"
          (.str "Pending")).2.orders "0123456789abcdef01234567" =
        some { (⟨"0123456789abcdef01234567", none, [⟨idA, 2, 10⟩, ⟨idB, 1, 5⟩], 25,
          "Pending", some "12 Main St", none, 1700000000000⟩ : Order) with
          status := "Pending" } :=
  put_status_any_transition env0 store1 "0123456789abcdef01234567" "Pending"
    "0123456789abcdef01234567" _ (by decide) (by decide) rfl rfl

/-- C17. A status update with one of the five statuses and an order id that
resolves to no stored order, because it is the id of none or because it is
not an object id at all, is answered 404 and leaves the store as it was. -/
theorem put_status_unknown_order (env : Env) (s : Store) (orderId : String)
    (t : String) (ht : t ∈ validStatuses)
    (hnone : ∀ id, env.castObjectId (.str orderId) = some id →
      findOrder s.orders id = none) :
    (orderRouter_put_status env s orderId (.str t)).1.status = 404 ∧
      (orderRouter_put_status env s orderId (.str t)).2 = s := by
  have hvalid : (!(JVal.str t).truthy || !(JVal.str t).includedIn validStatuses) = false := by
    have hne : t ≠ "" := by
      rintro rfl
      simp [validStatuses] at ht
    simp [JVal.truthy, JVal.includedIn, hne, ht]
  unfold orderRouter_put_status
  simp only [hvalid, Bool.false_eq_true, ↓reduceIte]
  cases hcast : env.castObjectId (.str orderId) with
  | none => exact ⟨rfl, rfl⟩
  | some id => simp only [hnone id hcast, and_self]

theorem put_status_unknown_order_witness :
    (orderRouter_put_status env0 store1 "ffffffffffffffffffffffff"
        (.str "Shipped")).1.status = 404 ∧
      (orderRouter_put_status env0 store1 "ffffffffffffffffffffffff"
        (.str "Shipped")).2 = store1 :=
  put_status_unknown_order env0 store1 "ffffffffffffffffffffffff" "Shipped" (by decide)
    (by
      intro id hid
      have : id = "ffffffffffffffffffffffff" := by
        have h : env0.castObjectId (.str "ffffffffffffffffffffffff") =
            some "ffffffffffffffffffffffff" := by decide
        rw [h] at hid
        injection hid with hid
        exact hid.symm
      subst this
      rfl)


/-! ### Inventory writes -/

theorem saveInventory_of_find (pid : ObjectId) :
    ∀ (inv : List Inventory) (r : Inventory), findInventory inv pid = some r →
      ∃ pre rest, inv = pre ++ r :: rest ∧ (∀ x ∈ pre, x.product_id ≠ pid) ∧
        r.product_id = pid ∧
        ∀ r' : Inventory, r'.product_id = pid → saveInventory r' inv = pre ++ r' :: rest
  | [], r, h => by simp [findInventory] at h
  | r0 :: rs, r, h => by
    unfold findInventory at h
    rw [List.find?_cons] at h
    split at h
    · next hid =>
      injection h with h
      subst h
      have hid' : r0.product_id = pid := by simpa using hid
      exact ⟨[], rs, rfl, by simp, hid', fun r' hr' => by simp [saveInventory, hid', hr']⟩
    · next hid =>
      have hid' : r0.product_id ≠ pid := by simpa using hid
      obtain ⟨pre, rest, hrs, hpre, hrid, hsave⟩ := saveInventory_of_find pid rs r h
      refine ⟨r0 :: pre, rest, by simp [hrs], ?_, hrid, ?_⟩
      · intro x hx
        rcases List.mem_cons.mp hx with rfl | hx
        · exact hid'
        · exact hpre x hx
      · intro r' hr'
        simp [saveInventory, hid', hr', hsave r' hr']

theorem findInventory_prefix {pid : ObjectId} {pre rest : List Inventory} {r : Inventory}
    (hpre : ∀ x ∈ pre, x.product_id ≠ pid) (hr : r.product_id = pid) :
    findInventory (pre ++ r :: rest) pid = some r := by
  induction pre with
  | nil => simp [findInventory, hr]
  | cons x xs ih =>
    have hx : x.product_id ≠ pid := hpre x (List.mem_cons_self _ _)
    have := ih fun y hy => hpre y (List.mem_cons_of_mem _ hy)
    unfold findInventory at this ⊢
    simp [List.find?_cons, hx, this]

theorem findInventory_append_new {pid : ObjectId} {inv : List Inventory} {r : Inventory}
    (h : findInventory inv pid = none) (hr : r.product_id = pid) :
    findInventory (inv ++ [r]) pid = some r := by
  unfold findInventory at h ⊢
  rw [List.find?_append, h]
  simp [hr]

/-- C18. For a numeric quantity `q`, a product that exists, a threshold
that is absent or casts, and a write the database takes: without a record of
the product, one record is appended, with quantity `q` and the threshold
given, 10 when none is given, and the response is 201 (the generated `_id`
being new); with a record, the response is 200 and that record, in place, has
quantity `q` and the threshold given, its own when none is given. In both
cases every other record is as it was, and no record of the product is
added to an existing one. -/
theorem inventory_put_creates_or_updates (env : Env) (s : Store) (productId : String)
    (body : JVal) (q : ℚ) (pid : ObjectId) (product : Product)
    (hq : bodyField body "quantity" = .num q)
    (hpid : env.castObjectId (.str productId) = some pid)
    (hprod : s.findProduct pid = some product)
    (hcast : (castNumberPath env (bodyField body "low_stock_threshold")).isSome)
    (hwrite : env.inventoryWriteFails 0 = false) :
    (findInventory s.inventory pid = none →
        (s.inventory.find? fun r => r.id == env.newId) = none →
        ∃ th, givenThreshold env (bodyField body "low_stock_threshold") (some 10) = some th ∧
          ((bodyField body "low_stock_threshold").isUndefined = true → th = some 10) ∧
          (∀ t, bodyField body "low_stock_threshold" = .num t → th = some t) ∧
          (inventoryRouter_put env s productId body).1.status = 201 ∧
          (inventoryRouter_put env s productId body).2 =
            { s with inventory := s.inventory ++ [⟨env.newId, pid, q, env.clock 0, th⟩] }) ∧
      ∀ r, findInventory s.inventory pid = some r →
        ∃ pre rest th date,
          givenThreshold env (bodyField body "low_stock_threshold") r.low_stock_threshold =
            some th ∧
          ((bodyField body "low_stock_threshold").isUndefined = true →
            th = r.low_stock_threshold) ∧
          (∀ t, bodyField body "low_stock_threshold" = .num t → th = some t) ∧
          s.inventory = pre ++ r :: rest ∧ (∀ x ∈ pre, x.product_id ≠ pid) ∧
          (inventoryRouter_put env s productId body).1.status = 200 ∧
          (inventoryRouter_put env s productId body).2 =
            { s with inventory := pre ++
              { r with quantity := q, low_stock_threshold := th,
                       last_stocked_date := date } :: rest } := by
  have hgiven : ∀ fallback, ∃ th,
      givenThreshold env (bodyField body "low_stock_threshold") fallback = some th ∧
      ((bodyField body "low_stock_threshold").isUndefined = true → th = fallback) ∧
      (∀ t, bodyField body "low_stock_threshold" = .num t → th = some t) := by
    intro fallback
    cases hl : bodyField body "low_stock_threshold" with
    | undefined => exact ⟨fallback, rfl, (fun _ => rfl), (fun t ht => by cases ht)⟩
    | num t =>
      refine ⟨some t, rfl, (fun h => by cases h), (fun t' ht' => ?_)⟩
      injection ht' with ht'
      rw [ht']
    | null => exact ⟨none, rfl, (fun h => by cases h), (fun t ht => by cases ht)⟩
    | bool b =>
      rw [hl] at hcast
      obtain ⟨th, hth⟩ := Option.isSome_iff_exists.mp hcast
      exact ⟨th, hth, (fun h => by cases h), (fun t ht => by cases ht)⟩
    | str x =>
      rw [hl] at hcast
      obtain ⟨th, hth⟩ := Option.isSome_iff_exists.mp hcast
      exact ⟨th, hth, (fun h => by cases h), (fun t ht => by cases ht)⟩
    | arr xs =>
      rw [hl] at hcast
      obtain ⟨th, hth⟩ := Option.isSome_iff_exists.mp hcast
      exact ⟨th, hth, (fun h => by cases h), (fun t ht => by cases ht)⟩
    | obj fs =>
      rw [hl] at hcast
      obtain ⟨th, hth⟩ := Option.isSome_iff_exists.mp hcast
      exact ⟨th, hth, (fun h => by cases h), (fun t ht => by cases ht)⟩
  constructor
  · intro hnone hfresh
    obtain ⟨th, hth, hund, hnum⟩ := hgiven (some 10)
    refine ⟨th, hth, hund, hnum, ?_⟩
    unfold inventoryRouter_put
    simp only [hq, hpid, hprod, hnone, hth, hwrite, hfresh, Option.isSome_none,
      Bool.or_self, Bool.false_eq_true, ↓reduceIte, and_self]
  · intro r hr
    obtain ⟨th, hth, hund, hnum⟩ := hgiven r.low_stock_threshold
    obtain ⟨pre, rest, hinv, hpre, hrid, hsave⟩ := saveInventory_of_find pid s.inventory r hr
    refine ⟨pre, rest, th, if q ≠ r.quantity then env.clock 0 else r.last_stocked_date,
      hth, hund, hnum, hinv, hpre, ?_⟩
    unfold inventoryRouter_put
    simp only [hq, hpid, hprod, hr, hth, hwrite, Bool.false_eq_true, ↓reduceIte, true_and]
    rw [hsave ⟨r.id, r.product_id, q,
      if q ≠ r.quantity then env.clock 0 else r.last_stocked_date, th⟩ hrid]


theorem inventory_put_creates_or_updates_witness :
    ∃ th, givenThreshold env0
          (bodyField (.obj [("quantity", .num 4)]) "low_stock_threshold") (some 10) =
          some th ∧
        ((bodyField (.obj [("quantity", .num 4)]) "low_stock_threshold").isUndefined = true →
          th = some 10) ∧
        (∀ t, bodyField (.obj [("quantity", .num 4)]) "low_stock_threshold" = .num t →
          th = some t) ∧
        (inventoryRouter_put env0 store2 idC (.obj [("quantity", .num 4)])).1.status = 201 ∧
        (inventoryRouter_put env0 store2 idC (.obj [("quantity", .num 4)])).2 =
          { store2 with
            inventory := store2.inventory ++ [⟨env0.newId, idC, 4, env0.clock 0, th⟩] } :=
  (inventory_put_creates_or_updates env0 store2 idC (.obj [("quantity", .num 4)]) 4 idC _
    rfl (by decide) rfl rfl rfl).1 rfl rfl

/-- The two cases of an inventory write, evaluated: product C, without a
record, gets one with quantity 4 and threshold 10; the record of product A
gets quantity 8 and threshold 2 in place. -/
theorem inventory_put_example :
    (inventoryRouter_put env0 store2 idC (.obj [("quantity", .num 4)])).2.inventory.map
        (fun r => (r.product_id, r.quantity, r.low_stock_threshold)) =
        [(idA, 5, some 10), (idB, 3, some 10), (idC, 4, some 10)] ∧
      (inventoryRouter_put env0 store0 idA
          (.obj [("quantity", .num 8), ("low_stock_threshold", .num 2)])).1.status = 200 ∧
      (inventoryRouter_put env0 store0 idA
          (.obj [("quantity", .num 8), ("low_stock_threshold", .num 2)])).2.inventory.map
        (fun r => (r.product_id, r.quantity, r.low_stock_threshold)) =
        [(idA, 8, some 2), (idB, 3, some 10)] := by
  decide!

/-- C19, as stated, fails: the record of product A holds 5 and was last
stocked at time 0; writing the quantity 5 again is answered 200 and the
record is still last stocked at time 0, not at the time of the write. -/
theorem inventory_put_same_quantity_keeps_date :
    (inventoryRouter_put env0 store0 idA (.obj [("quantity", .num 5)])).1.status = 200 ∧
      (inventoryRouter_put env0 store0 idA (.obj [("quantity", .num 5)])).2.inventory.map
        (fun r => (r.product_id, r.quantity, r.last_stocked_date)) =
        [(idA, 5, 0), (idB, 3, 0)] ∧
      env0.clock 0 ≠ 0 := by
  decide!

/-- C19, amended. After a successful inventory write (200 or 201) the record
of the product holds the written quantity, and its `last_stocked_date` is the
time of the write when the record is new or the written quantity differs from
the stored one; when the written quantity equals the stored one the
`last_stocked_date` is left as it was. -/
theorem inventory_put_last_stocked_date (env : Env) (s : Store) (productId : String)
    (body : JVal)
    (hok : (inventoryRouter_put env s productId body).1.status = 200 ∨
      (inventoryRouter_put env s productId body).1.status = 201) :
    ∃ q pid r', bodyField body "quantity" = .num q ∧
      env.castObjectId (.str productId) = some pid ∧
      findInventory (inventoryRouter_put env s productId body).2.inventory pid = some r' ∧
      r'.quantity = q ∧
      (findInventory s.inventory pid = none → r'.last_stocked_date = env.clock 0) ∧
      ∀ r, findInventory s.inventory pid = some r →
        (q ≠ r.quantity → r'.last_stocked_date = env.clock 0) ∧
        (q = r.quantity → r'.last_stocked_date = r.last_stocked_date) := by
  unfold inventoryRouter_put at hok ⊢
  split at hok
  · next q hq =>
    split at hok
    · simp at hok
    · next pid hpid =>
      split at hok
      · simp at hok
      · next product hprod =>
        split at hok
        · next r hr =>
          split at hok
          · simp [failedToUpdateInventory] at hok
          · next th hth =>
            split at hok
            · simp [failedToUpdateInventory] at hok
            · next hw =>
              obtain ⟨pre, rest, hinv, hpre, hrid, hsave⟩ :=
                saveInventory_of_find pid s.inventory r hr
              refine ⟨q, pid, ⟨r.id, r.product_id, q,
                if q ≠ r.quantity then env.clock 0 else r.last_stocked_date, th⟩, hq, hpid,
                ?_, rfl, ?_, ?_⟩
              · simp only [hq, hpid, hprod, hr, hth, hw, ↓reduceIte]
                rw [hsave ⟨r.id, r.product_id, q,
                  if q ≠ r.quantity then env.clock 0 else r.last_stocked_date, th⟩ hrid]
                exact findInventory_prefix hpre hrid
              · intro hnone
                rw [hr] at hnone
                cases hnone
              · intro r0 hr0
                rw [hr] at hr0
                injection hr0 with hr0
                subst hr0
                constructor
                · intro hne
                  simp only [hne, ne_eq, not_false_eq_true, ↓reduceIte]
                · intro heq
                  simp only [heq, ne_eq, not_true_eq_false, ↓reduceIte]
        · next hnone =>
          split at hok
          · simp [failedToUpdateInventory] at hok
          · next th hth =>
            split at hok
            · simp [failedToUpdateInventory] at hok
            · next hw =>
              refine ⟨q, pid, ⟨env.newId, pid, q, env.clock 0, th⟩, hq, hpid, ?_, rfl,
                fun _ => rfl, ?_⟩
              · simp only [hq, hpid, hprod, hnone, hth, hw, ↓reduceIte]
                exact findInventory_append_new hnone rfl
              · intro r0 hr0
                rw [hnone] at hr0
                cases hr0
  · simp at hok

theorem inventory_put_last_stocked_date_witness :
    ∃ q pid r', bodyField (.obj [("quantity", .num 8)]) "quantity" = .num q ∧
      env0.castObjectId (.str idA) = some pid ∧
      findInventory (inventoryRouter_put env0 store0 idA
        (.obj [("quantity", .num 8)])).2.inventory pid = some r' ∧
      r'.quantity = q ∧
      (findInventory store0.inventory pid = none → r'.last_stocked_date = env0.clock 0) ∧
      ∀ r, findInventory store0.inventory pid = some r →
        (q ≠ r.quantity → r'.last_stocked_date = env0.clock 0) ∧
        (q = r.quantity → r'.last_stocked_date = r.last_stocked_date) :=
  inventory_put_last_stocked_date env0 store0 idA (.obj [("quantity", .num 8)])
    (Or.inl (by decide))

/-- C20, as stated, fails: the server stores the quantity -3, and the
quantity 3/2 with the threshold -1, sent for product A; the client form lets
the fractional inputs "1.5" through and puts them. -/
theorem inventory_put_accepts_negative_and_fractional :
    (inventoryRouter_put env0 store0 idA (.obj [("quantity", .num (-3))])).1.status = 200 ∧
      (inventoryRouter_put env0 store0 idA (.obj [("quantity", .num (-3))])).2.inventory.map
        (fun r => (r.product_id, r.quantity)) = [(idA, -3), (idB, 3)] ∧
      (inventoryRouter_put env0 store0 idA
          (.obj [("quantity", .num (3 / 2)), ("low_stock_threshold", .num (-1))])).1.status =
        200 ∧
      (inventoryRouter_put env0 store0 idA
          (.obj [("quantity", .num (3 / 2)),
            ("low_stock_threshold", .num (-1))])).2.inventory.map
        (fun r => (r.product_id, r.quantity, r.low_stock_threshold)) =
        [(idA, 3 / 2, some (-1)), (idB, 3, some 10)] ∧
      handleSubmit number0 ⟨"1.5", "1.5"⟩ =
        .ok (.obj [("quantity", .num (3 / 2)), ("low_stock_threshold", .num (3 / 2))]) := by
  refine ⟨by decide!, by decide!, by decide!, by decide!, ?_⟩
  simp [handleSubmit, validateForm, number0, isNaN, isNegative, jsonNumber]
  norm_num

/-- C20, amended. The server rejects, with 400 and without writing, every
inventory write whose `quantity` is missing or is not a number; it makes no
other check of `quantity` or `low_stock_threshold`. The client form rejects,
without sending anything, every submission whose quantity or threshold is
empty, is not numeric, or is negative; it makes no integer check. -/
theorem inventory_write_validation (env : Env) (s : Store) (productId : String)
    (body : JVal) (number : String → Option ℚ) (formData : StockForm)
    (hserver : ∀ q, bodyField body "quantity" ≠ .num q)
    (hclient : (formData.quantity = "" ∨ number formData.quantity = none ∨
        ∃ q, number formData.quantity = some q ∧ q < 0) ∨
      formData.low_stock_threshold = "" ∨ number formData.low_stock_threshold = none ∨
        ∃ t, number formData.low_stock_threshold = some t ∧ t < 0) :
    inventoryRouter_put env s productId body = (⟨400, .message .quantityMustBeNumber⟩, s) ∧
      ∃ msg, handleSubmit number formData = .error msg := by
  constructor
  · unfold inventoryRouter_put
    split
    · next q hq => exact absurd hq (hserver q)
    · rfl
  · have hbad : ∀ x : String, (x = "" ∨ number x = none ∨ ∃ q, number x = some q ∧ q < 0) →
        (x == "" || isNaN (number x) || isNegative (number x)) = true := by
      rintro x (h | h | ⟨q, h, hlt⟩)
      · simp [h]
      · simp [h, isNaN]
      · simp [h, isNegative, hlt]
    unfold handleSubmit validateForm
    by_cases hq : (formData.quantity == "" || isNaN (number formData.quantity) ||
        isNegative (number formData.quantity)) = true
    · refine ⟨"Quantity must be a non-negative number.", ?_⟩
      simp only [hq, ↓reduceIte]
    · rcases hclient with h | h
      · exact absurd (hbad _ h) hq
      · refine ⟨"Low stock threshold must be a non-negative number.", ?_⟩
        simp only [hq, hbad _ h, ↓reduceIte, Bool.false_eq_true]

theorem inventory_write_validation_witness :
    inventoryRouter_put env0 store0 idA (.obj [("quantity", .str "7")]) =
        (⟨400, .message .quantityMustBeNumber⟩, store0) ∧
      ∃ msg, handleSubmit number0 ⟨"-3", "10"⟩ = .error msg :=
  inventory_write_validation env0 store0 idA (.obj [("quantity", .str "7")]) number0
    ⟨"-3", "10"⟩ (by intro q hq; cases hq)
    (Or.inl (Or.inr (Or.inr ⟨-3, by decide, by decide⟩)))


/-! ### The read phase and the commit -/

theorem post_of_readPhase_ok {env : Env} {s : Store} {req : OrderRequest} {acc : Staged}
    (h : readPhase env s req = .ok acc) :
    orderRouter_post env s req = commit env s req acc := by
  unfold readPhase at h
  unfold orderRouter_post
  split at h
  · next item rest hitems => simp only [h]
  · cases h

theorem post_of_readPhase_error {env : Env} {s : Store} {req : OrderRequest}
    {r : Response} (h : readPhase env s req = .error r) :
    orderRouter_post env s req = (r, s) := by
  unfold readPhase at h
  unfold orderRouter_post
  split at h
  · next item rest hitems => simp only [h]
  · injection h with h
    subst h
    rfl

theorem readPhase_error_status {env : Env} {s : Store} {req : OrderRequest}
    {r : Response} (h : readPhase env s req = .error r) :
    r.status = 400 ∨ r.status = 404 ∨ r.status = 500 := by
  unfold readPhase at h
  split at h
  · exact phase1_error_status _ _ h
  · injection h with h
    subst h
    left; rfl

/-- A placement answered 201 went through the read phase and a commit that
stored the order and made every staged write. -/
theorem post_created {env : Env} {s : Store} {req : OrderRequest}
    (h : (orderRouter_post env s req).1.status = 201) :
    ∃ acc order inv, readPhase env s req = .ok acc ∧ newOrder env req acc = some order ∧
      findOrder s.orders order.id = none ∧
      phase3 env 0 acc.inventoryUpdates s.inventory = (inv, true) ∧
      orderRouter_post env s req =
        (⟨201, .order (some (populate ⟨s.products, inv, s.orders ++ [order]⟩ order))⟩,
          ⟨s.products, inv, s.orders ++ [order]⟩) := by
  cases hr : readPhase env s req with
  | error r =>
    rw [post_of_readPhase_error hr] at h
    rcases readPhase_error_status hr with h' | h' | h' <;> simp_all
  | ok acc =>
    rw [post_of_readPhase_ok hr] at h ⊢
    obtain ⟨order, inv, hnew, hfresh, -, hp, hc⟩ := commit_created h
    exact ⟨acc, order, inv, rfl, hnew, hfresh, hp, hc⟩

/-! ### The billing address -/

/-- C21, as stated, fails: a request for 1 of product A shipped to
"12 Main St" that has no `billing_address` is stored without billing
address. -/
theorem post_stores_no_billing_address :
    (orderRouter_post env0 store0 (request [line idA 1])).1.status = 201 ∧
      (orderRouter_post env0 store0 (request [line idA 1])).2.orders.map
        (fun o => (o.shipping_address, o.billing_address)) =
        [(some "12 Main St", none)] := by
  decide

/-- C21, amended. The default is made by the client form: the body
`handleSubmitOrder` posts for a form whose billing address is empty carries
the shipping address as `billing_address`, and the order the server stores
for that body has a billing address equal to its shipping address. The server
stores the billing address it is sent: none when the body has none. -/
theorem billing_defaults_in_client (env : Env) (s : Store) (orderItems : List FormItem)
    (formData : FormData) (body : OrderRequest)
    (hbilling : formData.billing_address = "")
    (hsubmit : handleSubmitOrder orderItems formData = .ok body)
    (hcreated : (orderRouter_post env s body).1.status = 201) :
    body.billing_address = body.shipping_address ∧
      (∃ order : Order, (orderRouter_post env s body).2.orders = s.orders ++ [order] ∧
        order.shipping_address = some formData.shipping_address ∧
        order.billing_address = order.shipping_address) ∧
      ∀ req : OrderRequest, req.billing_address = .undefined →
        (orderRouter_post env s req).1.status = 201 →
        ∃ order : Order, (orderRouter_post env s req).2.orders = s.orders ++ [order] ∧
          order.billing_address = none := by
  have hbody : body = orderData orderItems formData := by
    unfold handleSubmitOrder at hsubmit
    split at hsubmit
    · cases hsubmit
    · split at hsubmit
      · cases hsubmit
      · injection hsubmit with hsubmit
        exact hsubmit.symm
  have hship : body.shipping_address = .str formData.shipping_address := by
    rw [hbody]; rfl
  have hbill : body.billing_address = .str formData.shipping_address := by
    rw [hbody]
    simp [orderData, orElse, hbilling]
  refine ⟨by rw [hship, hbill], ?_, ?_⟩
  · obtain ⟨acc, order, inv, -, hnew, -, -, hc⟩ := post_created hcreated
    obtain ⟨-, -, -, -, hs, hb, -⟩ := newOrder_some hnew
    rw [hship] at hs
    rw [hbill] at hb
    simp only [castStringPath, Option.some.injEq] at hs hb
    refine ⟨order, by rw [hc], hs.symm, ?_⟩
    rw [← hb, ← hs]
  · intro req hreq h201
    obtain ⟨acc, order, inv, -, hnew, -, -, hc⟩ := post_created h201
    obtain ⟨-, -, -, -, -, hb, -⟩ := newOrder_some hnew
    rw [hreq] at hb
    simp only [castStringPath, Option.some.injEq] at hb
    exact ⟨order, by rw [hc], hb.symm⟩

theorem billing_defaults_in_client_witness :
    (orderData [⟨idA, "A", 10, some 1⟩] ⟨"", "12 Main St", ""⟩).billing_address =
        (orderData [⟨idA, "A", 10, some 1⟩] ⟨"", "12 Main St", ""⟩).shipping_address ∧
      (∃ order : Order,
        (orderRouter_post env0 store0
          (orderData [⟨idA, "A", 10, some 1⟩] ⟨"", "12 Main St", ""⟩)).2.orders =
            store0.orders ++ [order] ∧
        order.shipping_address = some "12 Main St" ∧
        order.billing_address = order.shipping_address) ∧
      ∀ req : OrderRequest, req.billing_address = .undefined →
        (orderRouter_post env0 store0 req).1.status = 201 →
        ∃ order : Order, (orderRouter_post env0 store0 req).2.orders =
            store0.orders ++ [order] ∧
          order.billing_address = none :=
  billing_defaults_in_client env0 store0 [⟨idA, "A", 10, some 1⟩] ⟨"", "12 Main St", ""⟩
    (orderData [⟨idA, "A", 10, some 1⟩] ⟨"", "12 Main St", ""⟩) rfl rfl (by decide)

/-! ### An order that is not persisted -/

/-- C22. When the read phase is passed and the order is not persisted,
because the order document is refused by the schema (a path does not cast, a
line quantity is below 1), because the database refuses the write, or because
the generated `_id` is taken, the response is the 500 of the `catch` block
and the store, the inventory in particular, is left as it was. -/
theorem post_order_not_persisted (env : Env) (s : Store) (req : OrderRequest)
    (acc : Staged) (hread : readPhase env s req = .ok acc)
    (hfail : newOrder env req acc = none ∨ env.orderSaveFails = true ∨
      (findOrder s.orders env.newId).isSome = true) :
    orderRouter_post env s req = (failedToCreate, s) := by
  rw [post_of_readPhase_ok hread]
  unfold commit
  cases hnew : newOrder env req acc with
  | none => rfl
  | some order =>
    have hid : order.id = env.newId := (newOrder_some hnew).1
    rcases hfail with h | h | h
    · rw [hnew] at h; cases h
    · simp only [h, Bool.true_or, ↓reduceIte]
    · simp only [hid, h, Bool.or_true, ↓reduceIte]

theorem post_order_not_persisted_witness :
    orderRouter_post env0 store0 (request [line idA (1 / 2)]) = (failedToCreate, store0) :=
  post_order_not_persisted env0 store0 (request [line idA (1 / 2)])
    ⟨10 * (1 / 2), [(⟨idA, 1 / 2, 10⟩ : OrderItem)], [(⟨idA, 5 - 1 / 2⟩ : InventoryUpdate)]⟩
    (by
      have hlen : "aaaaaaaaaaaaaaaaaaaaaaaa".length = 24 := by decide
      simp [readPhase, request, line, phase1, checkItem, idCondition, JVal.field,
        List.lookup, JVal.truthy, JVal.isUndefined, env0, isHex24, idA, idB, store0,
        hlen]
      norm_num)
    (Or.inl (by
      simp [newOrder, castIdPath, castStringPath, request]
      norm_num))

/-! ### The low-stock flag -/

/-- C23, as stated, fails: a record whose quantity equals its threshold, 10
and 10, is flagged as low stock, although 10 is not below 10. -/
theorem isLowStock_at_threshold :
    isLowStock ⟨"111111111111111111111111", idA, 10, 0, some 10⟩ = true ∧
      ¬ ((10 : ℚ) < 10) := by
  decide

/-- C23, amended. A record with threshold `t` is flagged as low stock
exactly when its quantity is at most `t`: below the threshold or equal to
it. -/
theorem isLowStock_iff (item : Inventory) (t : ℚ)
    (h : item.low_stock_threshold = some t) :
    (isLowStock item = true ↔ item.quantity ≤ t) ∧
      (item.quantity = t → isLowStock item = true) ∧
      (t < item.quantity → isLowStock item = false) := by
  unfold isLowStock
  rw [h]
  simp only [Option.getD_some, decide_eq_true_eq, decide_eq_false_iff_not, not_le]
  exact ⟨trivial, fun heq => le_of_eq heq, fun hlt => hlt⟩

theorem isLowStock_iff_witness :
    (isLowStock ⟨"111111111111111111111111", idA, 10, 0, some 10⟩ = true ↔
        (10 : ℚ) ≤ 10) ∧
      ((10 : ℚ) = 10 → isLowStock ⟨"111111111111111111111111", idA, 10, 0, some 10⟩ = true) ∧
      ((10 : ℚ) < 10 →
        isLowStock ⟨"111111111111111111111111", idA, 10, 0, some 10⟩ = false) :=
  isLowStock_iff ⟨"111111111111111111111111", idA, 10, 0, some 10⟩ 10 rfl

/-! ### The list of orders -/

theorem forall₂_map_self {α β : Type} {R : α → β → Prop} (f : α → β)
    (h : ∀ a, R a (f a)) : ∀ l : List α, List.Forall₂ R l (l.map f)
  | [] => List.Forall₂.nil
  | a :: l => List.Forall₂.cons (h a) (forall₂_map_self f h l)

/-- C24. The list `GET /api/orders` answers with has one entry for each
stored order: entry by entry it is a rearrangement of the stored orders, each
stored order once, and an entry carries the `_id`, the `order_date`, the
total, the status and the addresses of its order, the quantity and the price
of each of its line items with, where the product is populated, the product
the line names, and, where the customer is populated, the customer the order
names. No entry comes before an entry of a later `order_date`. The store is
left as it was. -/
theorem get_orders_newest_first (customers : List Customer) (s : Store) :
    ∃ (sorted : List Order) (listed : List ListedOrder),
      orderRouter_get customers s = (⟨200, .orders listed⟩, s) ∧
      sorted.Perm s.orders ∧
      List.Forall₂
        (fun (o : Order) (l : ListedOrder) =>
          l.id = o.id ∧ l.order_date = o.order_date ∧ l.total_amount = o.total_amount ∧
          l.status = o.status ∧ l.shipping_address = o.shipping_address ∧
          l.billing_address = o.billing_address ∧
          (∀ c, l.customer_id = some c → o.customer_id = some c.id) ∧
          List.Forall₂
            (fun (i : OrderItem) (li : PopulatedItem) =>
              li.quantity = i.quantity ∧ li.price_per_unit = i.price_per_unit ∧
              ∀ p, li.product_id = some p → p.id = i.product_id)
            o.items l.items)
        sorted listed ∧
      List.Sorted (fun a b : ListedOrder => b.order_date ≤ a.order_date) listed := by
  haveI : IsTotal Order (fun a b => b.order_date ≤ a.order_date) :=
    ⟨fun a b => Nat.le_total b.order_date a.order_date⟩
  haveI : IsTrans Order (fun a b => b.order_date ≤ a.order_date) :=
    ⟨fun _ _ _ hab hbc => Nat.le_trans hbc hab⟩
  refine ⟨sortByDateDesc s.orders, (sortByDateDesc s.orders).map (listOrder customers s),
    rfl, List.perm_insertionSort _ _, ?_, ?_⟩
  · refine forall₂_map_self _ (fun o => ?_) _
    refine ⟨rfl, rfl, rfl, rfl, rfl, rfl, ?_, ?_⟩
    · intro c hc
      simp only [listOrder] at hc
      cases hcust : o.customer_id with
      | none => rw [hcust] at hc; cases hc
      | some id =>
        rw [hcust] at hc
        simp only [Option.some_bind, Option.map_eq_some'] at hc
        obtain ⟨c', hfind, rfl⟩ := hc
        have := List.find?_some hfind
        simp only [beq_iff_eq] at this
        simp only [this]
    · refine forall₂_map_self _ (fun i => ?_) _
      refine ⟨rfl, rfl, ?_⟩
      intro p hp
      simp only [populateItem, Option.map_eq_some'] at hp
      obtain ⟨p', hfind, rfl⟩ := hp
      exact findProduct_id hfind
  · have hsorted : List.Sorted (fun a b : Order => b.order_date ≤ a.order_date)
        (sortByDateDesc s.orders) := List.sorted_insertionSort _ _
    exact List.pairwise_map.mpr hsorted

/-- The orders of `store4`, dated 20, 10 and 30, are listed in the order 30,
20, 10. -/
theorem get_orders_example :
    ∃ listed, (orderRouter_get [] store4).1 = ⟨200, .orders listed⟩ ∧
      listed.map (fun l => (l.id, l.order_date, l.total_amount, l.status)) =
        [("0000000000000000000000a3", 30, 20, "Pending"),
          ("0000000000000000000000a1", 20, 10, "Pending"),
          ("0000000000000000000000a2", 10, 5, "Shipped")] :=
  ⟨_, rfl, by decide⟩


/-! ### The writes of phase 3, one by one -/

theorem phase3_eq_applyWrites (env : Env) :
    ∀ (j : Nat) (us : List InventoryUpdate) (inv : List Inventory),
      (phase3 env j us inv).2 = true → (phase3 env j us inv).1 = applyWrites env j us inv
  | _, [], _, _ => rfl
  | j, u :: us, inv, h => by
    unfold phase3 at h ⊢
    unfold applyWrites
    split
    · next hf => simp [hf] at h
    · next hf =>
      simp only [hf, Bool.false_eq_true, ↓reduceIte] at h
      exact phase3_eq_applyWrites env (j + 1) us _ h

theorem phase3_fails_at (env : Env) :
    ∀ (k j : Nat) (us : List InventoryUpdate) (inv : List Inventory), k < us.length →
      (∀ i < k, env.inventoryWriteFails (j + i) = false) →
      env.inventoryWriteFails (j + k) = true →
      phase3 env j us inv = (applyWrites env j (us.take k) inv, false)
  | _, _, [], _, hk, _, _ => by simp at hk
  | 0, j, u :: us, inv, _, _, hf => by
    unfold phase3
    simp only [Nat.add_zero] at hf
    simp [hf, applyWrites]
  | k + 1, j, u :: us, inv, hk, hb, hf => by
    unfold phase3
    have h0 : env.inventoryWriteFails j = false := by simpa using hb 0 (Nat.succ_pos k)
    simp only [h0, Bool.false_eq_true, ↓reduceIte, List.take_succ_cons, applyWrites]
    refine phase3_fails_at env k (j + 1) us _ (by simpa using hk) ?_ ?_
    · intro i hi
      have := hb (i + 1) (Nat.succ_lt_succ hi)
      rwa [Nat.add_comm i 1, ← Nat.add_assoc] at this
    · rwa [Nat.add_comm k 1, ← Nat.add_assoc] at hf

theorem applyWrites_other (env : Env) {pid : ObjectId} :
    ∀ (j : Nat) (us : List InventoryUpdate) (inv : List Inventory),
      pid ∉ us.map InventoryUpdate.productId →
      findInventory (applyWrites env j us inv) pid = findInventory inv pid
  | _, [], _, _ => rfl
  | j, u :: us, inv, h => by
    rw [List.map_cons, List.mem_cons, not_or] at h
    unfold applyWrites
    rw [applyWrites_other env (j + 1) us _ h.2,
      findInventory_findOneAndUpdate_other _ _ _ h.1]

theorem findInventory_findOneAndUpdate_isSome (p : ObjectId) (q : ℚ) (t : Timestamp)
    (inv : List Inventory) (pid : ObjectId) (h : (findInventory inv pid).isSome) :
    (findInventory (findOneAndUpdate p q t inv) pid).isSome := by
  by_cases hp : pid = p
  · subst hp
    obtain ⟨r, hr⟩ := Option.isSome_iff_exists.mp h
    rw [findInventory_findOneAndUpdate_same _ _ _ inv r hr]
    rfl
  · rw [findInventory_findOneAndUpdate_other _ _ _ hp]
    exact h

/-- After writes that all went through, a product that has a record holds
the quantity staged by the last write that names it. -/
theorem applyWrites_last (env : Env) (u : InventoryUpdate) (us2 : List InventoryUpdate)
    (hlast : u.productId ∉ us2.map InventoryUpdate.productId) :
    ∀ (us1 : List InventoryUpdate) (j : Nat) (inv : List Inventory),
      (findInventory inv u.productId).isSome →
      ∃ r, findInventory (applyWrites env j (us1 ++ u :: us2) inv) u.productId = some r ∧
        r.quantity = u.newQuantity
  | [], j, inv, h => by
    obtain ⟨r, hr⟩ := Option.isSome_iff_exists.mp h
    rw [List.nil_append]
    unfold applyWrites
    rw [applyWrites_other env (j + 1) us2 _ hlast,
      findInventory_findOneAndUpdate_same _ _ _ inv r hr]
    exact ⟨_, rfl, rfl⟩
  | v :: us1, j, inv, h => by
    rw [List.cons_append]
    unfold applyWrites
    exact applyWrites_last env u us2 hlast us1 (j + 1) _
      (findInventory_findOneAndUpdate_isSome _ _ _ inv _ h)

theorem untouched_refl (named : List ObjectId) :
    ∀ inv : List Inventory, List.Forall₂ (Untouched named) inv inv
  | [] => List.Forall₂.nil
  | _ :: rs => List.Forall₂.cons ⟨rfl, rfl, rfl, fun _ => rfl⟩ (untouched_refl named rs)

theorem untouched_trans {named : List ObjectId} {a b c : List Inventory}
    (hab : List.Forall₂ (Untouched named) a b) (hbc : List.Forall₂ (Untouched named) b c) :
    List.Forall₂ (Untouched named) a c := by
  induction hab generalizing c with
  | nil => cases hbc; exact List.Forall₂.nil
  | cons h _ ih =>
    cases hbc with
    | cons h' hrest =>
      refine List.Forall₂.cons ?_ (ih hrest)
      obtain ⟨h1, h2, h3, h4⟩ := h
      obtain ⟨h1', h2', h3', h4'⟩ := h'
      refine ⟨h1'.trans h1, h2'.trans h2, h3'.trans h3, fun hn => ?_⟩
      have hb := h4 hn
      rw [hb] at h4'
      exact h4' hn

theorem untouched_mono {named named' : List ObjectId} (hsub : ∀ x ∈ named, x ∈ named')
    {a b : List Inventory} (h : List.Forall₂ (Untouched named) a b) :
    List.Forall₂ (Untouched named') a b :=
  h.imp fun _ _ ⟨h1, h2, h3, h4⟩ => ⟨h1, h2, h3, fun hn => h4 fun hx => hn (hsub _ hx)⟩

theorem findOneAndUpdate_untouched (pid : ObjectId) (q : ℚ) (t : Timestamp) :
    ∀ inv : List Inventory,
      List.Forall₂ (Untouched [pid]) inv (findOneAndUpdate pid q t inv)
  | [] => List.Forall₂.nil
  | r :: rs => by
    unfold findOneAndUpdate
    split
    · next hid =>
      have hid' : r.product_id = pid := by simpa using hid
      refine List.Forall₂.cons ⟨rfl, rfl, rfl, fun hn => ?_⟩ (untouched_refl _ rs)
      exact absurd (by simp [hid']) hn
    · exact List.Forall₂.cons ⟨rfl, rfl, rfl, fun _ => rfl⟩
        (findOneAndUpdate_untouched pid q t rs)

theorem applyWrites_untouched (env : Env) :
    ∀ (j : Nat) (us : List InventoryUpdate) (inv : List Inventory),
      List.Forall₂ (Untouched (us.map InventoryUpdate.productId)) inv
        (applyWrites env j us inv)
  | _, [], inv => untouched_refl _ inv
  | j, u :: us, inv => by
    unfold applyWrites
    refine untouched_trans
      (untouched_mono ?_ (findOneAndUpdate_untouched u.productId u.newQuantity _ inv))
      (untouched_mono ?_ (applyWrites_untouched env (j + 1) us _))
    · intro x hx
      rw [List.mem_singleton] at hx
      simp [hx]
    · intro x hx
      exact List.mem_cons_of_mem _ (by simpa using hx)


theorem readPhase_arr {env : Env} {s : Store} {req : OrderRequest} {items : List JVal}
    (hitems : req.items = .arr items) (hne : items ≠ []) :
    readPhase env s req = phase1 env s items ⟨0, [], []⟩ := by
  unfold readPhase
  cases items with
  | nil => exact absurd rfl hne
  | cons item rest => simp only [hitems]

theorem forall₂_split {α β : Type} {R : α → β → Prop} {a : α} {l₂ : List α} :
    ∀ (l₁ : List α) (bs : List β), List.Forall₂ R (l₁ ++ a :: l₂) bs →
      ∃ bs₁ b bs₂, bs = bs₁ ++ b :: bs₂ ∧ List.Forall₂ R l₁ bs₁ ∧ R a b ∧
        List.Forall₂ R l₂ bs₂
  | [], bs, h => by
    cases h with
    | cons hab hrest => exact ⟨[], _, _, rfl, List.Forall₂.nil, hab, hrest⟩
  | x :: l₁, bs, h => by
    cases h with
    | cons hxb hrest =>
      obtain ⟨bs₁, b, bs₂, hbs, h1, hab, h2⟩ := forall₂_split l₁ _ hrest
      exact ⟨_ :: bs₁, b, bs₂, by rw [hbs]; rfl, List.Forall₂.cons hxb h1, hab, h2⟩

theorem taken_same_ids {env : Env} {s : Store} {items : List JVal}
    {lus : List (OrderItem × InventoryUpdate)}
    (h : List.Forall₂ (fun item lu => Taken env s item lu.1 lu.2) items lus) :
    (lus.map Prod.fst).map OrderItem.product_id =
      (lus.map Prod.snd).map InventoryUpdate.productId := by
  induction h with
  | nil => rfl
  | cons ha _ ih =>
    obtain ⟨v, q, matching, product, inventory, -, -, -, -, -, -, -, -, hli, hu⟩ := ha
    simp only [List.map_cons, ih, hli, hu]

theorem forall₂_exists_mem_of_mem_right {α β : Type} {R : α → β → Prop} {l₁ : List α}
    {l₂ : List β} (h : List.Forall₂ R l₁ l₂) {b : β} (hb : b ∈ l₂) :
    ∃ a ∈ l₁, R a b := by
  induction h with
  | nil => cases hb
  | cons hr _ ih =>
    rcases List.mem_cons.mp hb with rfl | hb
    · exact ⟨_, List.mem_cons_self _ _, hr⟩
    · obtain ⟨a, ha, hab⟩ := ih hb
      exact ⟨a, List.mem_cons_of_mem _ ha, hab⟩

/-- The staged write of an item is for the product the item resolves to. -/
theorem taken_itemProduct {env : Env} {s : Store} {item : JVal} {li : OrderItem}
    {u : InventoryUpdate} (h : Taken env s item li u) :
    ∃ p, itemProduct env s item = some p ∧ u.productId = p.id := by
  obtain ⟨v, q, matching, product, inventory, hv, -, -, -, hcond, hprod, -, -, -, rfl⟩ := h
  exact ⟨product, by simp only [itemProduct, hv, hcond, hprod], rfl⟩

/-! ### A write of phase 3 that is refused -/

/-- C26. When the read phase is passed, the order is persisted, and the
database refuses staged write number `k` after taking the writes before it:
the caller gets the 500 of the `catch` block; the order stays in the ledger;
the inventory is the one the first `k` staged writes make, in which a product
they do not name has the record it had (nothing staged at position `k` or
later is applied, nothing is rolled back) and a product they name holds the
quantity staged by the last of them that names it. -/
theorem post_inventory_write_refused (env : Env) (s : Store) (req : OrderRequest)
    (acc : Staged) (order : Order) (k : Nat)
    (hread : readPhase env s req = .ok acc) (hnew : newOrder env req acc = some order)
    (hsave : env.orderSaveFails = false) (hfresh : findOrder s.orders order.id = none)
    (hk : k < acc.inventoryUpdates.length)
    (hbefore : ∀ i < k, env.inventoryWriteFails i = false)
    (hfail : env.inventoryWriteFails k = true) :
    orderRouter_post env s req =
        (failedToCreate,
          ⟨s.products, applyWrites env 0 (acc.inventoryUpdates.take k) s.inventory,
            s.orders ++ [order]⟩) ∧
      (∀ pid, pid ∉ (acc.inventoryUpdates.take k).map InventoryUpdate.productId →
        findInventory (applyWrites env 0 (acc.inventoryUpdates.take k) s.inventory) pid =
          findInventory s.inventory pid) ∧
      ∀ us1 u us2, acc.inventoryUpdates.take k = us1 ++ u :: us2 →
        u.productId ∉ us2.map InventoryUpdate.productId →
        (findInventory s.inventory u.productId).isSome →
        ∃ r, findInventory (applyWrites env 0 (acc.inventoryUpdates.take k) s.inventory)
            u.productId = some r ∧ r.quantity = u.newQuantity := by
  refine ⟨?_, fun pid hpid => applyWrites_other env 0 _ _ hpid, ?_⟩
  · rw [post_of_readPhase_ok hread]
    unfold commit
    have hp := phase3_fails_at env k 0 acc.inventoryUpdates s.inventory hk
      (by simpa using hbefore) (by simpa using hfail)
    simp only [hnew, hsave, hfresh, hp, Option.isSome_none, Bool.or_self,
      Bool.false_eq_true, ↓reduceIte]
  · intro us1 u us2 hsplit hlast hsome
    rw [hsplit]
    exact applyWrites_last env u us2 hlast us1 0 s.inventory hsome

theorem post_inventory_write_refused_witness :
    (orderRouter_post envFail1 store0 (request [line idA 2, line idB 1])).1.status = 500 ∧
      (orderRouter_post envFail1 store0 (request [line idA 2, line idB 1])).2.orders.length =
        1 ∧
      (orderRouter_post envFail1 store0 (request [line idA 2, line idB 1])).2.inventory.map
        (fun r => (r.product_id, r.quantity)) = [(idA, 3), (idB, 3)] :=
  have h := (post_inventory_write_refused envFail1 store0
    (request [line idA 2, line idB 1])
    ⟨0 + 10 * 2 + 5 * 1, [] ++ [(⟨idA, 2, 10⟩ : OrderItem)] ++ [(⟨idB, 1, 5⟩ : OrderItem)],
      [] ++ [(⟨idA, 5 - 2⟩ : InventoryUpdate)] ++ [(⟨idB, 3 - 1⟩ : InventoryUpdate)]⟩
    ⟨envFail1.newId, none, [] ++ [(⟨idA, 2, 10⟩ : OrderItem)] ++ [(⟨idB, 1, 5⟩ : OrderItem)],
      0 + 10 * 2 + 5 * 1, "Pending", some "12 Main St", none, envFail1.clock 0⟩
    1 rfl rfl rfl rfl (by decide)
    (by intro i hi; interval_cases i; rfl) rfl).1
  ⟨by rw [h]; rfl, by rw [h]; rfl, by rw [h]; decide!⟩

/-! ### A product named on several lines -/

/-- In a placement answered 201 the available quantity of a product ends at
the previous one minus the quantity of the last line that names it. -/
theorem available_after_created {env : Env} {s : Store} {req : OrderRequest}
    {pre rest : List JVal} {item : JVal} {pid : ObjectId} {q : ℚ}
    (hcreated : (orderRouter_post env s req).1.status = 201)
    (hitems : req.items = .arr (pre ++ item :: rest))
    (hpid : itemProductId env item = some pid) (hq : itemQuantity item = some q)
    (hlast : ∀ x ∈ rest, ∀ p, itemProduct env s x = some p → p.id ≠ pid) :
    available (orderRouter_post env s req).2 pid = available s pid - q := by
  obtain ⟨acc, order, inv, hread, -, -, hp, hc⟩ := post_created hcreated
  rw [readPhase_arr hitems (by simp)] at hread
  obtain ⟨lus, hall, -, hupd, -⟩ := phase1_ok _ _ _ hread
  rw [List.nil_append] at hupd
  obtain ⟨lus1, lu, lus2, hlus, -, hacc, hrest⟩ := forall₂_split pre lus hall
  obtain ⟨pid', q', product, inventory, hpid', hq', -, -, hinv, -, -, hu⟩ :=
    accepted_of_taken hacc hpid
  rw [hpid] at hpid'
  rw [hq] at hq'
  injection hpid' with hpid'
  injection hq' with hq'
  subst hpid' hq'
  have hnot : lu.2.productId ∉ (lus2.map Prod.snd).map InventoryUpdate.productId := by
    intro hmem
    rw [List.map_map, List.mem_map] at hmem
    obtain ⟨lu', hlu', hid⟩ := hmem
    obtain ⟨x, hx, htaken⟩ := forall₂_exists_mem_of_mem_right hrest hlu'
    obtain ⟨p, hp', hpid''⟩ := taken_itemProduct htaken
    rw [hu] at hid
    simp only [Function.comp_apply] at hid
    exact hlast x hx p hp' (by rw [← hpid'', hid])
  have hinv' : (findInventory s.inventory lu.2.productId).isSome := by
    rw [hu, hinv]; rfl
  have hw := phase3_eq_applyWrites env 0 acc.inventoryUpdates s.inventory
    (by rw [hp])
  rw [hp] at hw
  simp only at hw
  rw [hupd, hlus, List.map_append, List.map_cons] at hw
  obtain ⟨r, hr, hrq⟩ := applyWrites_last env lu.2 (lus2.map Prod.snd) hnot
    (lus1.map Prod.snd) 0 s.inventory hinv'
  rw [← hw] at hr
  rw [hu] at hr hrq
  simp only at hr hrq
  rw [hc]
  simp only [available, hr, hinv, hrq]

/-- C27. In a placement answered 201, every line that names the product
`pid` asked for no more than the quantity that was available before the
placement, each line on its own, and afterwards the available quantity is the
previous one minus the quantity of the last line that names `pid`, whatever
the earlier lines asked for. The last line for `pid` is a line that names
`pid` and after which no line resolves to the product `pid`. -/
theorem post_repeated_product_last_line (env : Env) (s : Store) (req : OrderRequest)
    (pre rest : List JVal) (item : JVal) (pid : ObjectId) (q : ℚ)
    (hcreated : (orderRouter_post env s req).1.status = 201)
    (hitems : req.items = .arr (pre ++ item :: rest))
    (hpid : itemProductId env item = some pid) (hq : itemQuantity item = some q)
    (hlast : ∀ x ∈ rest, ∀ p, itemProduct env s x = some p → p.id ≠ pid) :
    available (orderRouter_post env s req).2 pid = available s pid - q ∧
      ∀ x ∈ pre ++ item :: rest, ∀ q', itemProductId env x = some pid →
        itemQuantity x = some q' → q' ≤ available s pid := by
  refine ⟨available_after_created hcreated hitems hpid hq hlast, ?_⟩
  obtain ⟨acc, order, inv, hread, -, -, -, -⟩ := post_created hcreated
  rw [readPhase_arr hitems (by simp)] at hread
  obtain ⟨lus, hall, -, -, -⟩ := phase1_ok _ _ _ hread
  intro x hx q' hxpid hxq
  obtain ⟨lu, -, htaken⟩ := forall₂_exists_mem_of_mem hall hx
  obtain ⟨pid', q'', product, inventory, hpid', hq', -, -, hinv, hle, -, -⟩ :=
    accepted_of_taken htaken hxpid
  rw [hxpid] at hpid'
  rw [hxq] at hq'
  injection hpid' with hpid'
  injection hq' with hq'
  subst hpid' hq'
  simp only [available, hinv]
  exact hle

theorem post_repeated_product_last_line_witness :
    available (orderRouter_post env0 store0 (request [line idA 3, line idA 4])).2 idA =
        available store0 idA - 4 ∧
      ∀ x ∈ [line idA 3] ++ line idA 4 :: [], ∀ q', itemProductId env0 x = some idA →
        itemQuantity x = some q' → q' ≤ available store0 idA :=
  post_repeated_product_last_line env0 store0 (request [line idA 3, line idA 4])
    [line idA 3] [] (line idA 4) idA 4 (by decide) rfl (by decide) (by decide)
    (by intro x hx; cases hx)

/-- Two lines for product A, of which 5 are in stock, asking for 3 and for 4:
the placement is answered 201, the order holds both lines, 7 units in all,
and the inventory of A ends at 5 - 4 = 1. -/
theorem post_repeated_product_example :
    (orderRouter_post env0 store0 (request [line idA 3, line idA 4])).1.status = 201 ∧
      (orderRouter_post env0 store0 (request [line idA 3, line idA 4])).2.orders.map
        (fun o => o.items.map fun i => (i.product_id, i.quantity)) =
        [[(idA, 3), (idA, 4)]] ∧
      (orderRouter_post env0 store0 (request [line idA 3, line idA 4])).2.inventory.map
        (fun r => (r.product_id, r.quantity)) = [(idA, 1), (idB, 3)] := by
  decide!

/-! ### What a successful placement leaves alone -/

/-- C29. A placement answered 201 appends one order to the orders it found
and leaves every product as it was; the inventory has the same records, in
the same places, each with its id, product and threshold, and the record of
a product that no line of the order names is the record it was. -/
theorem post_success_frame (env : Env) (s : Store) (req : OrderRequest)
    (hcreated : (orderRouter_post env s req).1.status = 201) :
    ∃ order : Order,
      (orderRouter_post env s req).2.orders = s.orders ++ [order] ∧
      (orderRouter_post env s req).2.products = s.products ∧
      List.Forall₂ (Untouched (order.items.map OrderItem.product_id)) s.inventory
        (orderRouter_post env s req).2.inventory ∧
      ∀ pid, pid ∉ order.items.map OrderItem.product_id →
        findInventory (orderRouter_post env s req).2.inventory pid =
          findInventory s.inventory pid := by
  obtain ⟨acc, order, inv, hread, hnew, -, hp, hc⟩ := post_created hcreated
  have hids : order.items.map OrderItem.product_id =
      acc.inventoryUpdates.map InventoryUpdate.productId := by
    obtain ⟨-, hoi, -⟩ := newOrder_some hnew
    unfold readPhase at hread
    split at hread
    · obtain ⟨lus, hall, hi, hu, -⟩ := phase1_ok _ _ _ hread
      rw [hoi, hi, hu, List.nil_append, List.nil_append]
      exact taken_same_ids hall
    · cases hread
  have hw := phase3_eq_applyWrites env 0 acc.inventoryUpdates s.inventory (by rw [hp])
  rw [hp] at hw
  simp only at hw
  refine ⟨order, by rw [hc], by rw [hc], ?_, ?_⟩
  · rw [hc, hids]
    simp only [hw]
    exact applyWrites_untouched env 0 _ _
  · intro pid hpid
    rw [hc]
    simp only [hw]
    rw [hids] at hpid
    exact applyWrites_other env 0 _ _ hpid

theorem post_success_frame_witness :
    ∃ order : Order,
      (orderRouter_post env0 store0 (request [line idA 2])).2.orders =
        store0.orders ++ [order] ∧
      (orderRouter_post env0 store0 (request [line idA 2])).2.products = store0.products ∧
      List.Forall₂ (Untouched (order.items.map OrderItem.product_id)) store0.inventory
        (orderRouter_post env0 store0 (request [line idA 2])).2.inventory ∧
      ∀ pid, pid ∉ order.items.map OrderItem.product_id →
        findInventory (orderRouter_post env0 store0 (request [line idA 2])).2.inventory pid =
          findInventory store0.inventory pid :=
  post_success_frame env0 store0 (request [line idA 2]) (by decide)


/-! ### Two placements for the last unit -/

theorem runSchedule_serial (a b : InFlight) (s : Store) (ha : a.progress = .waiting)
    (hb : b.progress = .waiting) :
    runSchedule [false, false, true, true] s a b =
      ((orderRouter_post b.env (orderRouter_post a.env s a.req).2 b.req).2,
        { a with progress := .done (orderRouter_post a.env s a.req).1 },
        { b with progress :=
            .done (orderRouter_post b.env (orderRouter_post a.env s a.req).2 b.req).1 }) := by
  have step2 : ∀ (f : InFlight) (t : Store), f.progress = .waiting →
      ((f.step t).1.step (f.step t).2).2 = (orderRouter_post f.env t f.req).2 ∧
      ((f.step t).1.step (f.step t).2).1 =
        { f with progress := .done (orderRouter_post f.env t f.req).1 } := by
    intro f t hf
    cases hr : readPhase f.env t f.req with
    | error r =>
      simp only [InFlight.step, hf, hr, post_of_readPhase_error hr, and_self]
    | ok acc =>
      simp only [InFlight.step, hf, hr, post_of_readPhase_ok hr, and_self]
  simp only [runSchedule]
  rw [(step2 a s ha).1, (step2 a s ha).2, (step2 b _ hb).1, (step2 b _ hb).2]

/-- C25, as stated, fails: product D has 1 unit in stock and two placements
each ask for 1. Under the schedule in which both run their read phase before
either commits, both are answered 201: two orders are stored and the
inventory of D is 0. -/
theorem overlapping_placements_both_succeed :
    (runSchedule [false, true, false, true] store3
        ⟨env0, request [line idD 1], .waiting⟩
        ⟨env1, request [line idD 1], .waiting⟩).2.1.status = some 201 ∧
      (runSchedule [false, true, false, true] store3
        ⟨env0, request [line idD 1], .waiting⟩
        ⟨env1, request [line idD 1], .waiting⟩).2.2.status = some 201 ∧
      (runSchedule [false, true, false, true] store3
        ⟨env0, request [line idD 1], .waiting⟩
        ⟨env1, request [line idD 1], .waiting⟩).1.orders.length = 2 ∧
      (runSchedule [false, true, false, true] store3
        ⟨env0, request [line idD 1], .waiting⟩
        ⟨env1, request [line idD 1], .waiting⟩).1.inventory.map
          (fun r => (r.product_id, r.quantity)) = [(idD, 0)] := by
  decide!

/-- C25, amended. Two placements that each ask for 1 unit of a product of
which 1 is available do not both succeed when they run one after the other:
the schedule that lets the first placement finish before the second one
starts gives the responses of the two handler calls in sequence, and these
are not both 201. When their steps overlap, both can succeed. -/
theorem serial_placements_not_both (a b : InFlight) (s : Store) (item1 item2 : JVal)
    (pid : ObjectId) (ha : a.progress = .waiting) (hb : b.progress = .waiting)
    (h1 : a.req.items = .arr [item1]) (h2 : b.req.items = .arr [item2])
    (hp1 : itemProductId a.env item1 = some pid) (hq1 : itemQuantity item1 = some 1)
    (hp2 : itemProductId b.env item2 = some pid) (hq2 : itemQuantity item2 = some 1)
    (hav : available s pid = 1) :
    runSchedule [false, false, true, true] s a b =
        ((orderRouter_post b.env (orderRouter_post a.env s a.req).2 b.req).2,
          { a with progress := .done (orderRouter_post a.env s a.req).1 },
          { b with progress :=
              .done (orderRouter_post b.env (orderRouter_post a.env s a.req).2 b.req).1 }) ∧
      ¬ ((orderRouter_post a.env s a.req).1.status = 201 ∧
        (orderRouter_post b.env (orderRouter_post a.env s a.req).2 b.req).1.status = 201) := by
  refine ⟨runSchedule_serial a b s ha hb, ?_⟩
  rintro ⟨hfirst, hsecond⟩
  have hzero : available (orderRouter_post a.env s a.req).2 pid = 0 := by
    have h := @available_after_created a.env s a.req [] [] item1 pid 1 hfirst h1 hp1 hq1
      (by intro x hx; cases hx)
    rw [h, hav]
    norm_num
  have hover : OverAsks b.env (orderRouter_post a.env s a.req).2 item2 :=
    ⟨pid, 1, hp2, hq2, by rw [hzero]; exact one_pos⟩
  obtain ⟨r, hr⟩ := phase1_error_of_overAsks (List.mem_singleton.mpr rfl) hover
    (⟨0, [], []⟩ : Staged)
  rw [post_of_phase1_error h2 hr] at hsecond
  rcases phase1_error_status _ _ hr with h | h | h <;> simp [h] at hsecond

theorem serial_placements_not_both_witness :
    runSchedule [false, false, true, true] store3
        ⟨env0, request [line idD 1], .waiting⟩ ⟨env1, request [line idD 1], .waiting⟩ =
        ((orderRouter_post env1
            (orderRouter_post env0 store3 (request [line idD 1])).2
            (request [line idD 1])).2,
          { (⟨env0, request [line idD 1], .waiting⟩ : InFlight) with
            progress := .done (orderRouter_post env0 store3 (request [line idD 1])).1 },
          { (⟨env1, request [line idD 1], .waiting⟩ : InFlight) with
            progress :=
              .done (orderRouter_post env1
                (orderRouter_post env0 store3 (request [line idD 1])).2
                (request [line idD 1])).1 }) ∧
      ¬ ((orderRouter_post env0 store3 (request [line idD 1])).1.status = 201 ∧
        (orderRouter_post env1
          (orderRouter_post env0 store3 (request [line idD 1])).2
          (request [line idD 1])).1.status = 201) :=
  serial_placements_not_both ⟨env0, request [line idD 1], .waiting⟩
    ⟨env1, request [line idD 1], .waiting⟩ store3 (line idD 1) (line idD 1) idD rfl rfl rfl rfl
    (by decide) (by decide) (by decide) (by decide) (by decide)


/-! ### Reaching the commit -/

theorem accepted_of_checked {env : Env} {s : Store} :
    ∀ items : List JVal,
      (∀ item ∈ items, ∃ pid q product r, itemProductId env item = some pid ∧
        itemQuantity item = some q ∧ 0 < q ∧ s.findProduct pid = some product ∧
        findInventory s.inventory pid = some r ∧ q ≤ r.quantity) →
      ∃ lus : List (OrderItem × InventoryUpdate),
        List.Forall₂ (fun item lu => Accepted env s item lu.1 lu.2) items lus
  | [], _ => ⟨[], List.Forall₂.nil⟩
  | item :: rest, h => by
    obtain ⟨lus, hall⟩ := accepted_of_checked rest
      (fun x hx => h x (List.mem_cons_of_mem _ hx))
    obtain ⟨pid, q, product, r, hpid, hq, hpos, hprod, hinv, hle⟩ :=
      h item (List.mem_cons_self _ _)
    exact ⟨(⟨pid, q, product.price⟩, ⟨pid, r.quantity - q⟩) :: lus,
      List.Forall₂.cons ⟨pid, q, product, r, hpid, hq, hpos, hprod, hinv, hle, rfl, rfl⟩
        hall⟩

/-- An item that passes phase 1 with a product id that is no object of query
operators names its product by an object id. -/
theorem itemProductId_of_taken {env : Env} {s : Store} {item : JVal} {li : OrderItem}
    {u : InventoryUpdate} (h : Taken env s item li u)
    (hid : ∀ v, item.field "product_id" = some v → env.castIdOperators v = none) :
    ∃ pid, itemProductId env item = some pid := by
  obtain ⟨v, q, matching, product, inventory, hv, htr, -, -, hcond, -⟩ := h
  have hops := hid v hv
  unfold idCondition at hcond
  cases hcast : env.castObjectId v with
  | none =>
    rw [hcast] at hcond
    simp only [hops] at hcond
    cases hcond
  | some pid => exact ⟨pid, by simp [itemProductId, hv, htr, hcast]⟩

/-- C28, as stated, fails: of product A 5 are available; the first line asks
for exactly 5 and a second line asks for 2 more of A. The placement is
answered 201 and the inventory of A is left at 3, not at 0. -/
theorem post_exact_stock_left_at_three :
    itemProductId env0 (line idA 5) = some idA ∧
      itemQuantity (line idA 5) = some (available store0 idA) ∧
      (orderRouter_post env0 store0 (request [line idA 5, line idA 2])).1.status = 201 ∧
      available (orderRouter_post env0 store0 (request [line idA 5, line idA 2])).2 idA =
        3 := by
  decide!

/-- C28. For a request in which no product id is an object of query
operators: the placement gets past its reads and checks, to
`newOrder.save()`, exactly when `items` is a non-empty list and every item
has a product id that is the object id of a product, a numeric quantity above
0, and an inventory record of the product whose quantity is at least the
quantity asked for. It then continues with the commit on what it staged. When
an item asks for exactly the available quantity of the product it names, no
later line resolves to that product, and the placement is answered 201, the
inventory of the product is left at 0. -/
theorem post_reaches_commit_iff (env : Env) (s : Store) (req : OrderRequest)
    (hids : ∀ items, req.items = .arr items → ∀ item ∈ items, ∀ v,
      item.field "product_id" = some v → env.castIdOperators v = none) :
    ((∃ acc, readPhase env s req = .ok acc) ↔
        ∃ items, req.items = .arr items ∧ items ≠ [] ∧
          ∀ item ∈ items, ∃ pid q product r, itemProductId env item = some pid ∧
            itemQuantity item = some q ∧ 0 < q ∧ s.findProduct pid = some product ∧
            findInventory s.inventory pid = some r ∧ q ≤ r.quantity) ∧
      (∀ acc, readPhase env s req = .ok acc →
        orderRouter_post env s req = commit env s req acc) ∧
      ∀ pre item rest pid q, req.items = .arr (pre ++ item :: rest) →
        itemProductId env item = some pid → itemQuantity item = some q →
        q = available s pid →
        (∀ x ∈ rest, ∀ p, itemProduct env s x = some p → p.id ≠ pid) →
        (orderRouter_post env s req).1.status = 201 →
        available (orderRouter_post env s req).2 pid = 0 := by
  refine ⟨⟨?_, ?_⟩, fun acc h => post_of_readPhase_ok h, ?_⟩
  · rintro ⟨acc, hacc⟩
    unfold readPhase at hacc
    split at hacc
    · next item rest hitems =>
      obtain ⟨lus, hall, -⟩ := phase1_ok _ _ _ hacc
      refine ⟨item :: rest, hitems, List.cons_ne_nil _ _, fun x hx => ?_⟩
      obtain ⟨lu, -, htaken⟩ := forall₂_exists_mem_of_mem hall hx
      obtain ⟨pid, hpid⟩ := itemProductId_of_taken htaken (hids _ hitems x hx)
      obtain ⟨pid', q, product, r, hpid', hq, hpos, hprod, hinv, hle, -, -⟩ :=
        accepted_of_taken htaken hpid
      exact ⟨pid', q, product, r, hpid', hq, hpos, hprod, hinv, hle⟩
    · cases hacc
  · rintro ⟨items, hitems, hne, hall⟩
    obtain ⟨lus, hacc⟩ := accepted_of_checked items hall
    exact ⟨_, by rw [readPhase_arr hitems hne, phase1_of_accepted items lus _ hacc]⟩
  · intro pre item rest pid q hitems hpid hq hqa hlast hcreated
    rw [available_after_created hcreated hitems hpid hq hlast, hqa, sub_self]

theorem post_reaches_commit_iff_witness :
    (∃ acc, readPhase env0 store0 (request [line idA 5]) = .ok acc) ∧
      available (orderRouter_post env0 store0 (request [line idA 5])).2 idA = 0 :=
  have h := post_reaches_commit_iff env0 store0 (request [line idA 5])
    (by
      intro items hitems item hmem v hv
      injection hitems with hitems
      subst hitems
      rw [List.mem_singleton] at hmem
      subst hmem
      injection hv with hv
      subst hv
      rfl)
  ⟨h.1.mpr ⟨[line idA 5], rfl, List.cons_ne_nil _ _, fun item hmem => by
      rw [List.mem_singleton] at hmem
      subst hmem
      exact ⟨idA, 5, _, _, by decide, by decide, by norm_num, rfl, rfl, by decide⟩⟩,
    h.2.2 [] (line idA 5) [] idA 5 rfl (by decide) (by decide) (by decide!)
      (by intro x hx; cases hx) (by decide)⟩

/-- Ordering the 5 units of product A that are in stock is answered 201 and
leaves the inventory of A at 0. -/
theorem post_exact_stock_example :
    (orderRouter_post env0 store0 (request [line idA 5])).1.status = 201 ∧
      (orderRouter_post env0 store0 (request [line idA 5])).2.inventory.map
        (fun r => (r.product_id, r.quantity)) = [(idA, 0), (idB, 3)] := by
  decide!

/-! ### Prices come from the catalog -/

theorem checkItem_sameLine {env : Env} {s : Store} {item item' : JVal}
    (h : SameLine item item') (acc : Staged) :
    checkItem env s acc item = checkItem env s acc item' := by
  unfold checkItem
  rw [h.1, h.2]

theorem phase1_sameLine {env : Env} {s : Store} {items items' : List JVal}
    (h : List.Forall₂ SameLine items items') (acc : Staged) :
    phase1 env s items acc = phase1 env s items' acc := by
  induction h generalizing acc with
  | nil => rfl
  | cons hab _ ih =>
    simp only [phase1, checkItem_sameLine hab acc]
    cases checkItem env s acc _ with
    | error r => rfl
    | ok acc' => exact ih acc'

/-- C30. Two requests against the same store whose items agree, line by
line, on `product_id` and `quantity`, and that are otherwise the same, get
the same response and leave the same store, whatever else their items carry
(a price, a name): the read phase stages the same line items, with the prices
of the catalog, and the same total. -/
theorem post_ignores_other_item_fields (env : Env) (s : Store) (req : OrderRequest)
    (items items' : List JVal) (hitems : req.items = .arr items)
    (hsame : List.Forall₂ SameLine items items') :
    readPhase env s req = readPhase env s { req with items := .arr items' } ∧
      orderRouter_post env s req =
        orderRouter_post env s { req with items := .arr items' } := by
  have hread : readPhase env s req = readPhase env s { req with items := .arr items' } := by
    cases hsame with
    | nil => simp only [readPhase, hitems]
    | cons hab hrest =>
      simp only [readPhase, hitems]
      exact phase1_sameLine (List.Forall₂.cons hab hrest) _
  refine ⟨hread, ?_⟩
  cases hr : readPhase env s req with
  | error r =>
    rw [post_of_readPhase_error hr, post_of_readPhase_error (hread ▸ hr)]
  | ok acc =>
    rw [post_of_readPhase_ok hr, post_of_readPhase_ok (hread ▸ hr)]
    rfl

theorem post_ignores_other_item_fields_witness :
    readPhase env0 store0
        (request [.obj [("product_id", .str idA), ("quantity", .num 2),
          ("price", .num (1 / 100)), ("name", .str "free")]]) =
        readPhase env0 store0
          { request [.obj [("product_id", .str idA), ("quantity", .num 2),
              ("price", .num (1 / 100)), ("name", .str "free")]] with
            items := .arr [line idA 2] } ∧
      orderRouter_post env0 store0
        (request [.obj [("product_id", .str idA), ("quantity", .num 2),
          ("price", .num (1 / 100)), ("name", .str "free")]]) =
        orderRouter_post env0 store0
          { request [.obj [("product_id", .str idA), ("quantity", .num 2),
              ("price", .num (1 / 100)), ("name", .str "free")]] with
            items := .arr [line idA 2] } :=
  post_ignores_other_item_fields env0 store0 _ _ [line idA 2] rfl
    (List.Forall₂.cons ⟨rfl, rfl⟩ List.Forall₂.nil)


end StoreApp
